import Mathlib

deriving instance DecidableEq for Except

/-!
Shallow embedding of `src/packages/astro-loader-obsidian/loaders.ts`
(the `ObsidianMdLoader` synchronization engine).

Modelling conventions:
* URLs and filesystem paths are plain strings; `new URL(encodeURI(entry), base)`
  is modelled as string append of the base directory (which the source
  guarantees ends in "/") and the entry, and `fileURLToPath` / `pathToFileURL`
  are the identity on these strings.
* The external collaborators (`readFile`, `stat`, `getEntryInfo`, `generateId`,
  `generateDigest`, `parseData`, the render function obtained from
  `getRenderFunction`, `posixRelative`, `isConfigFile`, `micromatch.isMatch`
  and the `fastGlob` result) live in an `Env` record of abstract functions,
  exactly as the spec treats them (black-box collaborators).  A fallible
  collaborator returns `Option`/`Except`; `none`/`.error` models a rejected
  promise at that call site.
* The `LoaderContext` store, the `untouchedEntries` set, the `fileToIdMap`
  and the logger are explicit state (`SyncState`).  Every observable action
  (log lines, `store.set`, `store.delete`, `store.addModuleImport`, calls to
  the content splitter / `parseData` / render) is appended to an event trace.
* `async` control flow is sequentialized: `Promise.all` over the p-limited
  tasks runs every task in list order (p-limit never cancels queued work on
  a sibling rejection) and the pass's result is the first rejection if any,
  in which case the stale-entry deletion step does not run — exactly the
  behaviour of `await Promise.all` followed by the `forEach` delete.
* A throw inside `syncData` is an `Except.error` result paired with the
  state as mutated so far (side effects before the throw persist).
-/

namespace Obsidian

/-- File metadata, the result of `stat` (only its presence matters here). -/
structure Stats where
  mtimeMs : Nat
deriving Repr, DecidableEq

/-- Result of the content splitter `getEntryInfo`: front-matter `data`
(kept opaque as a string) and the raw `body`. -/
structure EntryInfo where
  body : String
  data : String
deriving Repr, DecidableEq

/-- The `RenderedContent` produced by the render function; `imagePaths` models the
optional `metadata?.imagePaths` list. -/
structure Rendered where
  html : String
  imagePaths : Option (List String)
deriving Repr, DecidableEq

/-- One record of the Astro data store, with exactly the fields `store.set`
writes in `syncData` plus the `deferredRender` flag the fast path reads.
`filePath` and `digest` are optional because a pre-existing store (warm
start) may lack them; `store.set` in this loader always sets both. -/
structure StoreEntry where
  id : String
  data : String
  body : String
  filePath : Option String
  digest : Option String
  rendered : Option Rendered
  assetImports : Option (List String)
  deferredRender : Bool
deriving Repr, DecidableEq

/-- Observable events: logger output, store mutations and collaborator calls. -/
inductive Ev where
  | logError (msg : String)
  | logWarn (msg : String)
  | logInfo (msg : String)
  | splitCall (contents : String) (entry : String) (files : List String)
  | parseCall (id : String)
  | renderCall (id : String)
  | storeSet (id : String)
  | storeDelete (id : String)
  | addModuleImport (path : String)
deriving Repr, DecidableEq

/-- Model of `store.get id`. -/
def storeGet : List StoreEntry → String → Option StoreEntry
  | [], _ => none
  | e :: rest, id => if e.id = id then some e else storeGet rest id

/-- Model of `store.delete id` (removes the record keyed by `id`). -/
def storeDelete : List StoreEntry → String → List StoreEntry
  | [], _ => []
  | e :: rest, id => if e.id = id then storeDelete rest id else e :: storeDelete rest id

/-- Model of `store.set entry` (upsert keyed by `entry.id`). -/
def storeSet (st : List StoreEntry) (e : StoreEntry) : List StoreEntry :=
  e :: storeDelete st e.id

/-- Model of `Map.get` on `fileToIdMap`. -/
def mapGet : List (String × String) → String → Option String
  | [], _ => none
  | p :: rest, k => if p.1 = k then some p.2 else mapGet rest k

/-- Model of `Map.delete` on `fileToIdMap`. -/
def mapDelete : List (String × String) → String → List (String × String)
  | [], _ => []
  | p :: rest, k => if p.1 = k then mapDelete rest k else p :: mapDelete rest k

/-- Model of `Map.set` on `fileToIdMap`. -/
def mapSet (m : List (String × String)) (k v : String) : List (String × String) :=
  (k, v) :: mapDelete m k

/-- Model of `Set.delete` on `untouchedEntries`. -/
def setErase : List String → String → List String
  | [], _ => []
  | y :: rest, x => if y = x then setErase rest x else y :: setErase rest x

/-- The mutable state shared by all tasks of one loader invocation:
the data store, the pass-local `untouchedEntries` set, the loader-lifetime
`fileToIdMap`, and the trace of observable events. -/
structure SyncState where
  store : List StoreEntry
  untouched : List String
  fileToIdMap : List (String × String)
  events : List Ev
deriving Repr, DecidableEq

/-- Append one observable event to the trace. -/
def emit (s : SyncState) (e : Ev) : SyncState :=
  { s with events := s.events ++ [e] }

/-- The environment: configuration plus the external collaborators of the
loader, all abstract functions exactly as in spec §6.  `files` is the
candidate list produced by `fastGlob` at the start of the full pass;
`baseDir` is the resolved base directory string (ending in "/");
`root` is `config.root`; `isMatch` is `micromatch.isMatch · pattern`. -/
structure Env where
  readFile : String → Option String
  statFile : String → Option Stats
  getEntryInfo : String → String → String → Stats → List String → Except String EntryInfo
  generateId : String → String → String → String
  generateDigest : String → String
  parseData : String → String → String → Except String String
  render : String → String → String → String → String → Except String Rendered
  posixRelative : String → String → String
  isConfigFile : String → String → Bool
  isMatch : String → Bool
  root : String
  baseDir : String
  files : List String

/-- JS truthiness of the optional `filePath` field (`existingEntry.filePath`). -/
def truthyPath : Option String → Bool
  | some p => decide (p ≠ "")
  | none => false

/-- The guard `!contents && contents !== ""` of `syncData`: true exactly when
`readFile` failed (`undefined`), false for every string including `""`. -/
def noContents (c : Option String) : Bool :=
  (match c with
   | none => true
   | some s => decide (s = "")) && !(decide (c = some ""))

/-- The fast-path test
`existingEntry && existingEntry.digest === digest && existingEntry.filePath`. -/
def fastPathTest (existing : Option StoreEntry) (digest : String) : Bool :=
  match existing with
  | some ex => decide (ex.digest = some digest) && truthyPath ex.filePath
  | none => false

/-- Per-entry sync routine `syncData(entry, base, files)` of `loaders.ts`
(lines 60–144), returning the JS function's outcome (`.error` models an
uncaught throw) together with the mutated shared state.

Step by step against the source: build `fileUrl`; `readFile` with a
`.catch` that logs and yields `undefined`; an *uncaught* `stat` (a stat
rejection propagates); the `!contents && contents !== ""` guard that warns
and returns; `getEntryInfo` (uncaught); `generateId`;
`untouchedEntries.delete(id)`; `store.get`; `generateDigest`; the fast
path (with `store.addModuleImport` when the existing record is
deferred-render); otherwise `posixRelative` for the record's `filePath`,
`parseData` (uncaught), the render call in `try/catch` (failure logs and
leaves `rendered` undefined), `store.set`, and `fileToIdMap.set`. -/
def syncData (env : Env) (entry base : String) (files : List String)
    (s : SyncState) : Except String Unit × SyncState :=
  let fileUrl := base ++ entry
  let contents := env.readFile fileUrl
  let s :=
    match contents with
    | some _ => s
    | none => emit s (.logError ("Error reading " ++ entry))
  match env.statFile fileUrl with
  | none => (.error ("stat failed for " ++ entry), s)
  | some stats =>
    if noContents contents then
      (.ok (), emit s (.logWarn ("No contents found for " ++ entry)))
    else
      match contents with
      | none =>
        -- unreachable: `noContents none = true`, so the guard above fired
        (.error "unreachable", s)
      | some c =>
        let s := emit s (.splitCall c entry files)
        match env.getEntryInfo c fileUrl entry stats files with
        | .error e => (.error e, s)
        | .ok info =>
          let id := env.generateId entry base info.data
          let s := { s with untouched := setErase s.untouched id }
          let existingEntry := storeGet s.store id
          let digest := env.generateDigest c
          if fastPathTest existingEntry digest then
            let s :=
              match existingEntry with
              | some ex =>
                if ex.deferredRender then
                  emit s (.addModuleImport (match ex.filePath with
                    | some p => p
                    | none => ""))
                else s
              | none => s
            (.ok (), s)
          else
            let filePath := fileUrl
            let relativePath := env.posixRelative env.root filePath
            let s := emit s (.parseCall id)
            match env.parseData id info.data filePath with
            | .error e => (.error e, s)
            | .ok parsedData =>
              let s := emit s (.renderCall id)
              let rs :=
                match env.render id parsedData info.body filePath digest with
                | .ok r => (some r, s)
                | .error _ => (none, emit s (.logError ("Error rendering " ++ entry)))
              let rendered := rs.1
              let s := rs.2
              let newEntry : StoreEntry :=
                { id := id
                  data := parsedData
                  body := info.body
                  filePath := some relativePath
                  digest := some digest
                  rendered := rendered
                  assetImports := rendered.bind (fun r => r.imagePaths)
                  deferredRender := false }
              let s := emit { s with store := storeSet s.store newEntry } (.storeSet id)
              let s := { s with fileToIdMap := mapSet s.fileToIdMap filePath id }
              (.ok (), s)

/-- The fan-out of the full pass (lines 160–170): one task per candidate
file, skipping recognized configuration files, every task running whether
or not a sibling already failed (p-limit does not cancel queued work),
the first failure recorded as the `Promise.all` rejection reason.
The candidate-list context passed to each task is `env.files`, exactly the
list the source closes over.  `stepAcc` folds one task's outcome into the
accumulator (first rejection reason, shared state); `runTasks` is the task
loop itself. -/
def stepAcc (r : Except String Unit × SyncState) (fe : Option String) :
    Option String × SyncState :=
  (match r.1, fe with
   | .error msg, none => some msg
   | _, fe' => fe', r.2)

def runTasks (env : Env) : List String → Option String × SyncState → Option String × SyncState
  | [], acc => acc
  | e :: rest, acc =>
    if env.isConfigFile e env.baseDir then
      runTasks env rest acc
    else
      runTasks env rest (stepAcc (syncData env e env.baseDir env.files acc.2) acc.1)

/-- One iteration of the stale-entry deletion loop: `store.delete(id)`. -/
def delStep (st : SyncState) (id : String) : SyncState :=
  emit { st with store := storeDelete st.store id } (.storeDelete id)

/-- The stale-entry deletion step `untouchedEntries.forEach(id => store.delete(id))`. -/
def deleteUntouched (s : SyncState) : SyncState :=
  s.untouched.foldl delStep s

/-- One full pass of `load` (lines 57 and 155–173): initialize
`untouchedEntries` from `store.keys()`, run all per-entry tasks, and —
only when `await Promise.all` did not throw — delete every identifier
still untouched.  A task failure is the `load` promise's rejection. -/
def load (env : Env) (s0 : SyncState) : Except String Unit × SyncState :=
  let s := { s0 with untouched := s0.store.map (fun e => e.id) }
  let r := runTasks env env.files (none, s)
  match r.1 with
  | some e => (.error e, r.2)
  | none => (.ok (), deleteUntouched r.2)

/-- Executable model of `String.startsWith` (the library function is opaque
to kernel reduction, so the character-list prefix test is used instead). -/
def strStartsWith (s p : String) : Bool :=
  p.data.isPrefixOf s.data

/-- The predicate `matchesGlob` (lines 179–180): the relative entry must not escape the
base via "../" and must match the compiled pattern. -/
def matchesGlob (env : Env) (entry : String) : Bool :=
  !(strStartsWith entry "../") && env.isMatch entry

/-- Watch handler for `add` and `change` events (lines 184–196): relativize
against the base, drop non-matching paths, otherwise run `syncData` for
that single entry — passing the *captured full-pass candidate list*
`env.files` as context, as the source does — and log an info line on
success (a `syncData` throw skips the log and rejects the handler). -/
def onChange (env : Env) (changedPath : String) (s : SyncState) :
    Except String Unit × SyncState :=
  let entry := env.posixRelative env.baseDir changedPath
  if !(matchesGlob env entry) then
    (.ok (), s)
  else
    let r := syncData env entry env.baseDir env.files s
    match r.1 with
    | .ok _ => (.ok (), emit r.2 (.logInfo ("Reloaded data from " ++ entry)))
    | .error e => (.error e, r.2)

/-- Watch handler for `unlink` events (lines 198–208): relativize, drop
non-matching paths, look the deleted absolute path up in `fileToIdMap`;
when found delete the record and the index entry, otherwise do nothing. -/
def onUnlink (env : Env) (deletedPath : String) (s : SyncState) : SyncState :=
  let entry := env.posixRelative env.baseDir deletedPath
  if !(matchesGlob env entry) then
    s
  else
    match mapGet s.fileToIdMap deletedPath with
    | some id =>
      let s := emit { s with store := storeDelete s.store id } (.storeDelete id)
      { s with fileToIdMap := mapDelete s.fileToIdMap deletedPath }
    | none => s

/-- The identifier `syncData` derives for `entry` during a full pass, when
it gets as far as `generateId`; `none` when the read fails, the stat fails
or the splitter fails (all of which return/throw before `generateId`).
This is a function of the environment alone: every input of `generateId`
is environment-determined. -/
def derivedId (env : Env) (entry : String) : Option String :=
  let fileUrl := env.baseDir ++ entry
  match env.readFile fileUrl, env.statFile fileUrl with
  | some c, some stats =>
    match env.getEntryInfo c fileUrl entry stats env.files with
    | .ok info => some (env.generateId entry env.baseDir info.data)
    | .error _ => none
  | _, _ => none

/-- Count of events selected by `p` in a trace. -/
def numEv (p : Ev → Bool) (l : List Ev) : Nat :=
  (l.filter p).length

/-- Selector for `store.set` events. -/
def isSetEv : Ev → Bool
  | .storeSet _ => true
  | _ => false

/-- Selector for `parseData` calls. -/
def isParseEv : Ev → Bool
  | .parseCall _ => true
  | _ => false

/-- Selector for render calls. -/
def isRenderEv : Ev → Bool
  | .renderCall _ => true
  | _ => false

/-- Selector for warning log lines. -/
def isWarnEv : Ev → Bool
  | .logWarn _ => true
  | _ => false

/-- Selector for error log lines. -/
def isErrorEv : Ev → Bool
  | .logError _ => true
  | _ => false

/-- The rendered artifact the slow path ends up with for a given entry:
the render result on success, `undefined` when the render call threw.
Derived bookkeeping for stating lemmas; every input of the render call is
environment-determined. -/
def slowRendered (env : Env) (entry base c : String) (info : EntryInfo) (pd : String) :
    Option Rendered :=
  match env.render (env.generateId entry base info.data) pd info.body (base ++ entry)
      (env.generateDigest c) with
  | .ok r => some r
  | .error _ => none

/-- The record the slow path passes to `store.set`, as a function of the
environment (derived bookkeeping for stating lemmas). -/
def slowRecord (env : Env) (entry base c : String) (info : EntryInfo) (pd : String) :
    StoreEntry :=
  { id := env.generateId entry base info.data
    data := pd
    body := info.body
    filePath := some (env.posixRelative env.root (base ++ entry))
    digest := some (env.generateDigest c)
    rendered := slowRendered env entry base c info pd
    assetImports := (slowRendered env entry base c info pd).bind (fun r => r.imagePaths)
    deferredRender := false }

theorem storeGet_storeDelete_self (st : List StoreEntry) (id : String) :
    storeGet (storeDelete st id) id = none := by
  induction st with
  | nil => rfl
  | cons e rest ih =>
    by_cases h : e.id = id <;> simp [storeDelete, storeGet, h, ih]

theorem storeGet_storeDelete_ne (st : List StoreEntry) (id j : String) (h : id ≠ j) :
    storeGet (storeDelete st id) j = storeGet st j := by
  induction st with
  | nil => rfl
  | cons e rest ih =>
    by_cases he : e.id = id
    · simp [storeDelete, storeGet, he, ih]
      rw [if_neg h]
    · simp [storeDelete, storeGet, he, ih]

theorem storeGet_storeSet_self (st : List StoreEntry) (e : StoreEntry) :
    storeGet (storeSet st e) e.id = some e := by
  simp [storeSet, storeGet]

theorem storeGet_storeSet_ne (st : List StoreEntry) (e : StoreEntry) (j : String)
    (h : e.id ≠ j) : storeGet (storeSet st e) j = storeGet st j := by
  simp [storeSet, storeGet, h, storeGet_storeDelete_ne st e.id j h]

theorem setErase_self_not_mem (l : List String) (x : String) : x ∉ setErase l x := by
  induction l with
  | nil => simp [setErase]
  | cons y rest ih =>
    by_cases h : y = x <;> simp [setErase, h, ih]
    exact fun hx => absurd hx.symm h

theorem setErase_mem_ne (l : List String) (x j : String) (h : j ≠ x) :
    j ∈ setErase l x ↔ j ∈ l := by
  induction l with
  | nil => simp [setErase]
  | cons y rest ih =>
    by_cases hy : y = x
    · subst hy
      simp [setErase, ih, h]
    · simp [setErase, hy, ih]

theorem setErase_subset (l : List String) (x j : String) (h : j ∈ setErase l x) : j ∈ l := by
  by_cases hx : j = x
  · rw [hx] at h; exact absurd h (setErase_self_not_mem l x)
  · exact (setErase_mem_ne l x j hx).mp h

theorem syncData_read_fail_stat_ok (env : Env) (entry base : String) (files : List String)
    (s : SyncState) (st : Stats)
    (hread : env.readFile (base ++ entry) = none)
    (hstat : env.statFile (base ++ entry) = some st) :
    syncData env entry base files s =
      (.ok (), emit (emit s (.logError ("Error reading " ++ entry)))
        (.logWarn ("No contents found for " ++ entry))) := by
  simp [syncData, hread, hstat, noContents]

theorem syncData_stat_err (env : Env) (entry base : String) (files : List String)
    (s : SyncState)
    (hstat : env.statFile (base ++ entry) = none) :
    (syncData env entry base files s).1 = .error ("stat failed for " ++ entry) ∧
    ((syncData env entry base files s).2.store = s.store ∧
     (syncData env entry base files s).2.fileToIdMap = s.fileToIdMap ∧
     (syncData env entry base files s).2.untouched = s.untouched) := by
  cases hread : env.readFile (base ++ entry) <;>
    simp [syncData, hread, hstat, emit]

theorem syncData_split_err (env : Env) (entry base : String) (files : List String)
    (s : SyncState) (c : String) (st : Stats) (e : String)
    (hread : env.readFile (base ++ entry) = some c)
    (hstat : env.statFile (base ++ entry) = some st)
    (hsplit : env.getEntryInfo c (base ++ entry) entry st files = .error e) :
    syncData env entry base files s = (.error e, emit s (.splitCall c entry files)) := by
  simp [syncData, hread, hstat, noContents, hsplit]

theorem syncData_fast (env : Env) (entry base : String) (files : List String)
    (s : SyncState) (c : String) (st : Stats) (info : EntryInfo)
    (hread : env.readFile (base ++ entry) = some c)
    (hstat : env.statFile (base ++ entry) = some st)
    (hsplit : env.getEntryInfo c (base ++ entry) entry st files = .ok info)
    (hfast : fastPathTest (storeGet s.store (env.generateId entry base info.data))
      (env.generateDigest c) = true) :
    (syncData env entry base files s).1 = .ok () ∧
    (syncData env entry base files s).2.store = s.store ∧
    (syncData env entry base files s).2.fileToIdMap = s.fileToIdMap ∧
    (syncData env entry base files s).2.untouched =
      setErase s.untouched (env.generateId entry base info.data) ∧
    ∃ tail, (syncData env entry base files s).2.events =
      s.events ++ [.splitCall c entry files] ++ tail ∧
      ∀ ev ∈ tail, ∃ p, ev = Ev.addModuleImport p := by
  cases hex : storeGet s.store (env.generateId entry base info.data) with
  | none => rw [hex] at hfast; simp [fastPathTest] at hfast
  | some ex =>
    rw [hex] at hfast
    by_cases hdr : ex.deferredRender = true
    · refine ⟨?_, ?_, ?_, ?_,
        [Ev.addModuleImport (match ex.filePath with | some p => p | none => "")], ?_, ?_⟩ <;>
        simp [syncData, hread, hstat, noContents, hsplit, hex, hfast, emit, hdr]
    · refine ⟨?_, ?_, ?_, ?_, [], ?_, ?_⟩ <;>
        simp [syncData, hread, hstat, noContents, hsplit, hex, hfast, emit, hdr]

theorem syncData_parse_err (env : Env) (entry base : String) (files : List String)
    (s : SyncState) (c : String) (st : Stats) (info : EntryInfo) (e : String)
    (hread : env.readFile (base ++ entry) = some c)
    (hstat : env.statFile (base ++ entry) = some st)
    (hsplit : env.getEntryInfo c (base ++ entry) entry st files = .ok info)
    (hfast : fastPathTest (storeGet s.store (env.generateId entry base info.data))
      (env.generateDigest c) = false)
    (hparse : env.parseData (env.generateId entry base info.data) info.data
      (base ++ entry) = .error e) :
    syncData env entry base files s =
      (.error e,
        { store := s.store
          untouched := setErase s.untouched (env.generateId entry base info.data)
          fileToIdMap := s.fileToIdMap
          events := s.events ++ [.splitCall c entry files,
            .parseCall (env.generateId entry base info.data)] }) := by
  simp [syncData, hread, hstat, noContents, hsplit, hfast, hparse, emit]

theorem syncData_slow_ok (env : Env) (entry base : String) (files : List String)
    (s : SyncState) (c : String) (st : Stats) (info : EntryInfo) (pd : String)
    (hread : env.readFile (base ++ entry) = some c)
    (hstat : env.statFile (base ++ entry) = some st)
    (hsplit : env.getEntryInfo c (base ++ entry) entry st files = .ok info)
    (hfast : fastPathTest (storeGet s.store (env.generateId entry base info.data))
      (env.generateDigest c) = false)
    (hparse : env.parseData (env.generateId entry base info.data) info.data
      (base ++ entry) = .ok pd) :
    (syncData env entry base files s).1 = .ok () ∧
    (syncData env entry base files s).2.store =
      storeSet s.store (slowRecord env entry base c info pd) ∧
    (syncData env entry base files s).2.fileToIdMap =
      mapSet s.fileToIdMap (base ++ entry) (env.generateId entry base info.data) ∧
    (syncData env entry base files s).2.untouched =
      setErase s.untouched (env.generateId entry base info.data) ∧
    ∃ tail, (syncData env entry base files s).2.events =
      s.events ++ [.splitCall c entry files,
        .parseCall (env.generateId entry base info.data),
        .renderCall (env.generateId entry base info.data)] ++ tail ++
        [.storeSet (env.generateId entry base info.data)] ∧
      ∀ ev ∈ tail, ∃ m, ev = Ev.logError m := by
  cases hrend : env.render (env.generateId entry base info.data) pd info.body (base ++ entry)
      (env.generateDigest c) with
  | ok r =>
    refine ⟨?_, ?_, ?_, ?_, [], ?_, ?_⟩ <;>
      simp [syncData, hread, hstat, noContents, hsplit, hfast, hparse, hrend, emit,
        slowRecord, slowRendered]
  | error msg =>
    refine ⟨?_, ?_, ?_, ?_, [Ev.logError ("Error rendering " ++ entry)], ?_, ?_⟩ <;>
      simp [syncData, hread, hstat, noContents, hsplit, hfast, hparse, hrend, emit,
        slowRecord, slowRendered]

theorem numEv_append (p : Ev → Bool) (a b : List Ev) :
    numEv p (a ++ b) = numEv p a + numEv p b := by
  simp [numEv, List.filter_append]

theorem derivedId_eq_some (env : Env) (entry : String) (c : String) (st : Stats)
    (info : EntryInfo)
    (hread : env.readFile (env.baseDir ++ entry) = some c)
    (hstat : env.statFile (env.baseDir ++ entry) = some st)
    (hsplit : env.getEntryInfo c (env.baseDir ++ entry) entry st env.files = .ok info) :
    derivedId env entry = some (env.generateId entry env.baseDir info.data) := by
  simp [derivedId, hread, hstat, hsplit]

theorem syncData_split_called (env : Env) (entry base : String) (files : List String)
    (s : SyncState) (c : String) (st : Stats)
    (hread : env.readFile (base ++ entry) = some c)
    (hstat : env.statFile (base ++ entry) = some st) :
    Ev.splitCall c entry files ∈ (syncData env entry base files s).2.events ∧
    numEv isWarnEv (syncData env entry base files s).2.events = numEv isWarnEv s.events := by
  cases hsplit : env.getEntryInfo c (base ++ entry) entry st files with
  | error e =>
    rw [syncData_split_err env entry base files s c st e hread hstat hsplit]
    simp [emit, numEv, List.filter_append, isWarnEv]
  | ok info =>
    cases hfast : fastPathTest (storeGet s.store (env.generateId entry base info.data))
        (env.generateDigest c) with
    | true =>
      obtain ⟨-, -, -, -, tail, hev, htail⟩ :=
        syncData_fast env entry base files s c st info hread hstat hsplit hfast
      rw [hev]
      have hft : tail.filter isWarnEv = [] := by
        rw [List.filter_eq_nil_iff]
        intro ev hev'
        obtain ⟨p, rfl⟩ := htail ev hev'
        simp [isWarnEv]
      constructor
      · simp
      · simp [numEv, List.filter_append, hft, isWarnEv]
    | false =>
      cases hparse : env.parseData (env.generateId entry base info.data) info.data
          (base ++ entry) with
      | error e =>
        rw [syncData_parse_err env entry base files s c st info e hread hstat hsplit hfast hparse]
        simp [numEv, List.filter_append, isWarnEv]
      | ok pd =>
        obtain ⟨-, -, -, -, tail, hev, htail⟩ :=
          syncData_slow_ok env entry base files s c st info pd hread hstat hsplit hfast hparse
        rw [hev]
        have hft : tail.filter isWarnEv = [] := by
          rw [List.filter_eq_nil_iff]
          intro ev hev'
          obtain ⟨m, rfl⟩ := htail ev hev'
          simp [isWarnEv]
        constructor
        · simp
        · simp [numEv, List.filter_append, hft, isWarnEv]

/-- The empty starting state: empty store, nothing untouched, empty path
index, no events. -/
def stEmpty : SyncState := ⟨[], [], [], []⟩

/-- C9: for every entry whose file reads successfully with empty content
(the empty string), the per-entry routine does not take the no-contents
warning branch (no warning is logged) and instead proceeds normally,
invoking the content splitter with the empty body. -/
theorem empty_content_proceeds (env : Env) (entry base : String) (files : List String)
    (s : SyncState) (st : Stats)
    (hread : env.readFile (base ++ entry) = some "")
    (hstat : env.statFile (base ++ entry) = some st) :
    Ev.splitCall "" entry files ∈ (syncData env entry base files s).2.events ∧
    numEv isWarnEv (syncData env entry base files s).2.events = numEv isWarnEv s.events :=
  syncData_split_called env entry base files s "" st hread hstat

/-- C10: a watch event whose path relativized against the base escapes via
"../" is discarded by both the add/change handler and the unlink handler:
the per-entry routine is not invoked and the state (store included) is
returned unchanged. -/
theorem escaped_path_discarded (env : Env) (p : String) (s : SyncState)
    (h : strStartsWith (env.posixRelative env.baseDir p) "../" = true) :
    onChange env p s = (.ok (), s) ∧ onUnlink env p s = s := by
  constructor <;> simp [onChange, onUnlink, matchesGlob, h]

/-- Concrete environment for the C10 witness: a watcher event on a path
outside the base directory. -/
def envC10 : Env :=
  { readFile := fun _ => none
    statFile := fun _ => some ⟨0⟩
    getEntryInfo := fun c e _ _ _ => .ok ⟨c, e⟩
    generateId := fun e _ _ => e
    generateDigest := fun c => c
    parseData := fun _ d _ => .ok d
    render := fun _ _ b _ _ => .ok ⟨b, none⟩
    posixRelative := fun b q => if strStartsWith q b then ⟨q.data.drop b.data.length⟩ else "../" ++ q
    isConfigFile := fun _ _ => false
    isMatch := fun _ => true
    root := "root/"
    baseDir := "base/"
    files := ["a.md"] }

theorem escaped_path_discarded_witness :
    strStartsWith (envC10.posixRelative envC10.baseDir "outside.md") "../" = true ∧
    onChange envC10 "outside.md" stEmpty = (.ok (), stEmpty) ∧
    onUnlink envC10 "outside.md" stEmpty = stEmpty :=
  ⟨by decide,
   (escaped_path_discarded envC10 "outside.md" stEmpty (by decide)).1,
   (escaped_path_discarded envC10 "outside.md" stEmpty (by decide)).2⟩

/-- Concrete environment for the C9 witness: one file that reads as the
empty string. -/
def envC9 : Env :=
  { readFile := fun q => if q = "base/empty.md" then some "" else none
    statFile := fun _ => some ⟨7⟩
    getEntryInfo := fun c e _ _ _ => .ok ⟨c, "fm-" ++ e⟩
    generateId := fun e _ _ => "id-" ++ e
    generateDigest := fun c => "dg-" ++ c
    parseData := fun _ d _ => .ok d
    render := fun _ _ b _ _ => .ok ⟨b, none⟩
    posixRelative := fun b q => if strStartsWith q b then ⟨q.data.drop b.data.length⟩ else "../" ++ q
    isConfigFile := fun _ _ => false
    isMatch := fun _ => true
    root := "root/"
    baseDir := "base/"
    files := ["empty.md"] }

theorem empty_content_proceeds_witness :
    envC9.readFile ("base/" ++ "empty.md") = some "" ∧
    Ev.splitCall "" "empty.md" ["empty.md"] ∈
      (syncData envC9 "empty.md" "base/" ["empty.md"] stEmpty).2.events ∧
    numEv isWarnEv (syncData envC9 "empty.md" "base/" ["empty.md"] stEmpty).2.events =
      numEv isWarnEv stEmpty.events :=
  ⟨by decide,
   (empty_content_proceeds envC9 "empty.md" "base/" ["empty.md"] stEmpty ⟨7⟩
     (by decide) (by decide)).1,
   (empty_content_proceeds envC9 "empty.md" "base/" ["empty.md"] stEmpty ⟨7⟩
     (by decide) (by decide)).2⟩

/-- C1 (amended): for an entry whose raw-content read fails *and whose
subsequent stat succeeds*, `syncData` logs the read error and returns
normally with no store, index or untouched-set mutation, so the full pass
and sibling tasks are unaffected.  (When the stat also fails — the typical
case for a vanished file — the entry's task rejects, which aborts the full
pass; see the counterexample.) -/
theorem read_failure_entry_skipped (env : Env) (entry base : String) (files : List String)
    (s : SyncState) (st : Stats)
    (hread : env.readFile (base ++ entry) = none)
    (hstat : env.statFile (base ++ entry) = some st) :
    (syncData env entry base files s).1 = .ok () ∧
    (syncData env entry base files s).2.store = s.store ∧
    (syncData env entry base files s).2.fileToIdMap = s.fileToIdMap ∧
    (syncData env entry base files s).2.untouched = s.untouched ∧
    Ev.logError ("Error reading " ++ entry) ∈ (syncData env entry base files s).2.events := by
  rw [syncData_read_fail_stat_ok env entry base files s st hread hstat]
  simp [emit]

/-- Concrete environment for the C1 counterexample: the single candidate
file can neither be read nor stat'ed (a vanished file). -/
def envC1 : Env :=
  { readFile := fun _ => none
    statFile := fun _ => none
    getEntryInfo := fun c e _ _ _ => .ok ⟨c, e⟩
    generateId := fun e _ _ => e
    generateDigest := fun c => c
    parseData := fun _ d _ => .ok d
    render := fun _ _ b _ _ => .ok ⟨b, none⟩
    posixRelative := fun b q => if strStartsWith q b then ⟨q.data.drop b.data.length⟩ else "../" ++ q
    isConfigFile := fun _ _ => false
    isMatch := fun _ => true
    root := "root/"
    baseDir := "base/"
    files := ["a.md"] }

/-- C1 counterexample: an entry whose read fails can abort the full pass —
the uncaught `stat` that follows the caught `readFile` rejects, so `load`
rejects (the stale-entry deletion step never runs), contradicting the claim
that a read failure never aborts the full pass. -/
theorem read_failure_aborts_pass_cx :
    envC1.readFile (envC1.baseDir ++ "a.md") = none ∧
    "a.md" ∈ envC1.files ∧
    (load envC1 stEmpty).1 = .error ("stat failed for " ++ "a.md") ∧
    Ev.logError ("Error reading " ++ "a.md") ∈ (load envC1 stEmpty).2.events := by
  decide

/-- Concrete environment for the C1 witness: one unreadable (but
stat-able) file next to a healthy one. -/
def envC1w : Env :=
  { readFile := fun q => if q = "base/ok.md" then some "OK" else none
    statFile := fun _ => some ⟨1⟩
    getEntryInfo := fun c e _ _ _ => .ok ⟨c, e⟩
    generateId := fun e _ _ => "id-" ++ e
    generateDigest := fun c => "dg-" ++ c
    parseData := fun _ d _ => .ok d
    render := fun _ _ b _ _ => .ok ⟨b, none⟩
    posixRelative := fun b q => if strStartsWith q b then ⟨q.data.drop b.data.length⟩ else "../" ++ q
    isConfigFile := fun _ _ => false
    isMatch := fun _ => true
    root := "root/"
    baseDir := "base/"
    files := ["gone.md", "ok.md"] }

theorem read_failure_entry_skipped_witness :
    envC1w.readFile ("base/" ++ "gone.md") = none ∧
    (syncData envC1w "gone.md" "base/" envC1w.files stEmpty).1 = .ok () ∧
    (syncData envC1w "gone.md" "base/" envC1w.files stEmpty).2.store = stEmpty.store ∧
    Ev.logError ("Error reading " ++ "gone.md") ∈
      (syncData envC1w "gone.md" "base/" envC1w.files stEmpty).2.events :=
  ⟨by decide,
   (read_failure_entry_skipped envC1w "gone.md" "base/" envC1w.files stEmpty ⟨1⟩
     (by decide) (by decide)).1,
   (read_failure_entry_skipped envC1w "gone.md" "base/" envC1w.files stEmpty ⟨1⟩
     (by decide) (by decide)).2.1,
   (read_failure_entry_skipped envC1w "gone.md" "base/" envC1w.files stEmpty ⟨1⟩
     (by decide) (by decide)).2.2.2.2⟩

/-- C4 (amended): an add/change watch event on a matching path invokes the
per-entry routine for that single entry, but the candidate-file-list
context it passes to the content splitter is the full candidate list
captured by the initial full pass (`env.files`), not the entry's own path
alone. -/
theorem watch_change_uses_captured_files (env : Env) (p : String) (s : SyncState)
    (c : String) (st : Stats)
    (hmatch : matchesGlob env (env.posixRelative env.baseDir p) = true)
    (hread : env.readFile (env.baseDir ++ env.posixRelative env.baseDir p) = some c)
    (hstat : env.statFile (env.baseDir ++ env.posixRelative env.baseDir p) = some st) :
    Ev.splitCall c (env.posixRelative env.baseDir p) env.files ∈
      (onChange env p s).2.events := by
  have h := (syncData_split_called env (env.posixRelative env.baseDir p) env.baseDir
    env.files s c st hread hstat).1
  simp only [onChange, hmatch, Bool.not_true, Bool.false_eq_true, if_false]
  cases hr : (syncData env (env.posixRelative env.baseDir p) env.baseDir env.files s).1 with
  | ok u => simp [emit]; exact h
  | error e => exact h

/-- Concrete environment for the C4 counterexample and witness: two
candidate files, watcher fires on the first. -/
def envC4 : Env :=
  { readFile := fun q => if q = "base/a.md" then some "A" else if q = "base/b.md" then some "B" else none
    statFile := fun _ => some ⟨0⟩
    getEntryInfo := fun c e _ _ _ => .ok ⟨c, "fm-" ++ e⟩
    generateId := fun e _ _ => "id-" ++ e
    generateDigest := fun c => "dg-" ++ c
    parseData := fun _ d _ => .ok d
    render := fun _ _ b _ _ => .ok ⟨b, none⟩
    posixRelative := fun b q => if strStartsWith q b then ⟨q.data.drop b.data.length⟩ else "../" ++ q
    isConfigFile := fun _ _ => false
    isMatch := fun _ => true
    root := "root/"
    baseDir := "base/"
    files := ["a.md", "b.md"] }

/-- C4 counterexample: on a change event for `a.md` the content splitter is
invoked with the full captured candidate list `["a.md", "b.md"]`, and is
never invoked with the claimed single-entry context `["a.md"]`. -/
theorem watch_change_context_cx :
    envC4.files = ["a.md", "b.md"] ∧
    Ev.splitCall "A" "a.md" ["a.md", "b.md"] ∈ (onChange envC4 "base/a.md" stEmpty).2.events ∧
    (∀ ev ∈ (onChange envC4 "base/a.md" stEmpty).2.events,
      ev ≠ Ev.splitCall "A" "a.md" ["a.md"]) := by
  decide

theorem watch_change_uses_captured_files_witness :
    matchesGlob envC4 (envC4.posixRelative envC4.baseDir "base/a.md") = true ∧
    Ev.splitCall "A" (envC4.posixRelative envC4.baseDir "base/a.md") envC4.files ∈
      (onChange envC4 "base/a.md" stEmpty).2.events :=
  ⟨by decide,
   watch_change_uses_captured_files envC4 "base/a.md" stEmpty "A" ⟨0⟩
     (by decide) (by decide) (by decide)⟩

theorem runTasks_filter_config (env : Env) (l : List String) (acc : Option String × SyncState) :
    runTasks env l acc =
      runTasks env (l.filter (fun e => !(env.isConfigFile e env.baseDir))) acc := by
  induction l generalizing acc with
  | nil => rfl
  | cons e rest ih =>
    by_cases hc : env.isConfigFile e env.baseDir = true <;>
      simp [runTasks, hc, ih]

/-- C5 (amended): the full pass never schedules the per-entry routine for a
recognized configuration file (the task fan-out equals the fan-out over the
non-config candidates), but the add/change watch handler filters only by
the glob pattern and the "../" escape check, so a configuration file whose
relative path matches the pattern *does* get the per-entry routine invoked
by a watch event. -/
theorem config_file_handling (env : Env) (l : List String) (acc : Option String × SyncState)
    (p : String) (s : SyncState) (c : String) (st : Stats)
    (hconf : env.isConfigFile (env.posixRelative env.baseDir p) env.baseDir = true)
    (hmatch : matchesGlob env (env.posixRelative env.baseDir p) = true)
    (hread : env.readFile (env.baseDir ++ env.posixRelative env.baseDir p) = some c)
    (hstat : env.statFile (env.baseDir ++ env.posixRelative env.baseDir p) = some st) :
    runTasks env l acc =
      runTasks env (l.filter (fun e => !(env.isConfigFile e env.baseDir))) acc ∧
    Ev.splitCall c (env.posixRelative env.baseDir p) env.files ∈
      (onChange env p s).2.events := by
  constructor
  · exact runTasks_filter_config env l acc
  · have h := (syncData_split_called env (env.posixRelative env.baseDir p) env.baseDir
      env.files s c st hread hstat).1
    simp only [onChange, hmatch, Bool.not_true, Bool.false_eq_true, if_false]
    cases hr : (syncData env (env.posixRelative env.baseDir p) env.baseDir env.files s).1 with
    | ok u => simp [emit]; exact h
    | error e => exact h

/-- Concrete environment for the C5 counterexample and witness: the sole
candidate is the loader's own configuration file and the pattern matches
everything. -/
def envC5 : Env :=
  { readFile := fun q => if q = "base/.obsidian/app.json" then some "CFG" else none
    statFile := fun _ => some ⟨0⟩
    getEntryInfo := fun c _ e _ _ => .ok ⟨c, "fm-" ++ e⟩
    generateId := fun e _ _ => "id-" ++ e
    generateDigest := fun c => "dg-" ++ c
    parseData := fun _ d _ => .ok d
    render := fun _ _ b _ _ => .ok ⟨b, none⟩
    posixRelative := fun b q => if strStartsWith q b then ⟨q.data.drop b.data.length⟩ else "../" ++ q
    isConfigFile := fun e _ => e = ".obsidian/app.json"
    isMatch := fun _ => true
    root := "root/"
    baseDir := "base/"
    files := [".obsidian/app.json"] }

/-- C5 counterexample: a recognized configuration file that matches the
glob pattern is skipped by the full pass (zero store writes), yet an
add/change watch event on it *does* invoke the per-entry routine (the
content splitter is called on its contents), contradicting the claim that
watch events never invoke the routine for configuration files. -/
theorem config_file_watch_ingested_cx :
    envC5.isConfigFile ".obsidian/app.json" envC5.baseDir = true ∧
    matchesGlob envC5 ".obsidian/app.json" = true ∧
    Ev.splitCall "CFG" ".obsidian/app.json" envC5.files ∈
      (onChange envC5 "base/.obsidian/app.json" stEmpty).2.events ∧
    numEv isSetEv (load envC5 stEmpty).2.events = 0 := by
  decide

theorem config_file_handling_witness :
    envC5.isConfigFile (envC5.posixRelative envC5.baseDir "base/.obsidian/app.json")
      envC5.baseDir = true ∧
    runTasks envC5 envC5.files (none, stEmpty) =
      runTasks envC5 (envC5.files.filter (fun e => !(envC5.isConfigFile e envC5.baseDir)))
        (none, stEmpty) ∧
    Ev.splitCall "CFG" (envC5.posixRelative envC5.baseDir "base/.obsidian/app.json") envC5.files ∈
      (onChange envC5 "base/.obsidian/app.json" stEmpty).2.events :=
  ⟨by decide,
   (config_file_handling envC5 envC5.files (none, stEmpty) "base/.obsidian/app.json" stEmpty
     "CFG" ⟨0⟩ (by decide) (by decide) (by decide) (by decide)).1,
   (config_file_handling envC5 envC5.files (none, stEmpty) "base/.obsidian/app.json" stEmpty
     "CFG" ⟨0⟩ (by decide) (by decide) (by decide) (by decide)).2⟩

theorem syncData_slow_render_err (env : Env) (entry base : String) (files : List String)
    (s : SyncState) (c : String) (st : Stats) (info : EntryInfo) (pd msg : String)
    (hread : env.readFile (base ++ entry) = some c)
    (hstat : env.statFile (base ++ entry) = some st)
    (hsplit : env.getEntryInfo c (base ++ entry) entry st files = .ok info)
    (hfast : fastPathTest (storeGet s.store (env.generateId entry base info.data))
      (env.generateDigest c) = false)
    (hparse : env.parseData (env.generateId entry base info.data) info.data
      (base ++ entry) = .ok pd)
    (hrend : env.render (env.generateId entry base info.data) pd info.body (base ++ entry)
      (env.generateDigest c) = .error msg) :
    syncData env entry base files s =
      (.ok (),
        { store := storeSet s.store (slowRecord env entry base c info pd)
          untouched := setErase s.untouched (env.generateId entry base info.data)
          fileToIdMap := mapSet s.fileToIdMap (base ++ entry)
            (env.generateId entry base info.data)
          events := s.events ++ [.splitCall c entry files,
            .parseCall (env.generateId entry base info.data),
            .renderCall (env.generateId entry base info.data),
            .logError ("Error rendering " ++ entry),
            .storeSet (env.generateId entry base info.data)] }) := by
  simp [syncData, hread, hstat, noContents, hsplit, hfast, hparse, hrend, emit,
    slowRecord, slowRendered]

/-- C6: an entry whose render invocation fails is still written to the
store, with no rendered artifact and no asset imports; the failure is
logged, the routine returns successfully (so the pass and sibling tasks
continue), and no other identifier's record is touched. -/
theorem render_failure_isolated (env : Env) (entry base : String) (files : List String)
    (s : SyncState) (c : String) (st : Stats) (info : EntryInfo) (pd msg : String)
    (hread : env.readFile (base ++ entry) = some c)
    (hstat : env.statFile (base ++ entry) = some st)
    (hsplit : env.getEntryInfo c (base ++ entry) entry st files = .ok info)
    (hfast : fastPathTest (storeGet s.store (env.generateId entry base info.data))
      (env.generateDigest c) = false)
    (hparse : env.parseData (env.generateId entry base info.data) info.data
      (base ++ entry) = .ok pd)
    (hrend : env.render (env.generateId entry base info.data) pd info.body (base ++ entry)
      (env.generateDigest c) = .error msg) :
    (syncData env entry base files s).1 = .ok () ∧
    storeGet (syncData env entry base files s).2.store (env.generateId entry base info.data) =
      some (slowRecord env entry base c info pd) ∧
    (slowRecord env entry base c info pd).rendered = none ∧
    (slowRecord env entry base c info pd).assetImports = none ∧
    Ev.logError ("Error rendering " ++ entry) ∈ (syncData env entry base files s).2.events ∧
    ∀ j, j ≠ env.generateId entry base info.data →
      storeGet (syncData env entry base files s).2.store j = storeGet s.store j := by
  rw [syncData_slow_render_err env entry base files s c st info pd msg
    hread hstat hsplit hfast hparse hrend]
  refine ⟨rfl, ?_, ?_, ?_, ?_, ?_⟩
  · exact storeGet_storeSet_self s.store (slowRecord env entry base c info pd)
  · simp [slowRecord, slowRendered, hrend]
  · simp [slowRecord, slowRendered, hrend]
  · simp
  · intro j hj
    exact storeGet_storeSet_ne s.store (slowRecord env entry base c info pd) j
      (fun hh => hj (hh.symm))

/-- Concrete environment for the C6 witness: two files; rendering fails for
the first and succeeds for the second. -/
def envC6 : Env :=
  { readFile := fun q => if q = "base/a.md" then some "A" else if q = "base/b.md" then some "B" else none
    statFile := fun _ => some ⟨0⟩
    getEntryInfo := fun c _ e _ _ => .ok ⟨c, "fm-" ++ e⟩
    generateId := fun e _ _ => "id-" ++ e
    generateDigest := fun c => "dg-" ++ c
    parseData := fun _ d _ => .ok ("pd-" ++ d)
    render := fun i _ _ _ _ => if i = "id-a.md" then .error "boom" else .ok ⟨"html", none⟩
    posixRelative := fun b q => if strStartsWith q b then ⟨q.data.drop b.data.length⟩ else "../" ++ q
    isConfigFile := fun _ _ => false
    isMatch := fun _ => true
    root := "root/"
    baseDir := "base/"
    files := ["a.md", "b.md"] }

theorem render_failure_isolated_witness :
    envC6.render "id-a.md" "pd-fm-a.md" "A" ("base/" ++ "a.md") "dg-A" = .error "boom" ∧
    (syncData envC6 "a.md" "base/" envC6.files stEmpty).1 = .ok () ∧
    storeGet (syncData envC6 "a.md" "base/" envC6.files stEmpty).2.store "id-a.md" =
      some (slowRecord envC6 "a.md" "base/" "A" ⟨"A", "fm-a.md"⟩ "pd-fm-a.md") ∧
    (slowRecord envC6 "a.md" "base/" "A" ⟨"A", "fm-a.md"⟩ "pd-fm-a.md").rendered = none ∧
    (slowRecord envC6 "a.md" "base/" "A" ⟨"A", "fm-a.md"⟩ "pd-fm-a.md").assetImports = none ∧
    Ev.logError ("Error rendering " ++ "a.md") ∈
      (syncData envC6 "a.md" "base/" envC6.files stEmpty).2.events ∧
    (load envC6 stEmpty).1 = .ok () :=
  ⟨by decide,
   (render_failure_isolated envC6 "a.md" "base/" envC6.files stEmpty "A" ⟨0⟩ ⟨"A", "fm-a.md"⟩
     "pd-fm-a.md" "boom" (by decide) (by decide) (by decide) (by decide)
     (by decide) (by decide)).1,
   (render_failure_isolated envC6 "a.md" "base/" envC6.files stEmpty "A" ⟨0⟩ ⟨"A", "fm-a.md"⟩
     "pd-fm-a.md" "boom" (by decide) (by decide) (by decide) (by decide)
     (by decide) (by decide)).2.1,
   (render_failure_isolated envC6 "a.md" "base/" envC6.files stEmpty "A" ⟨0⟩ ⟨"A", "fm-a.md"⟩
     "pd-fm-a.md" "boom" (by decide) (by decide) (by decide) (by decide)
     (by decide) (by decide)).2.2.1,
   (render_failure_isolated envC6 "a.md" "base/" envC6.files stEmpty "A" ⟨0⟩ ⟨"A", "fm-a.md"⟩
     "pd-fm-a.md" "boom" (by decide) (by decide) (by decide) (by decide)
     (by decide) (by decide)).2.2.2.1,
   (render_failure_isolated envC6 "a.md" "base/" envC6.files stEmpty "A" ⟨0⟩ ⟨"A", "fm-a.md"⟩
     "pd-fm-a.md" "boom" (by decide) (by decide) (by decide) (by decide)
     (by decide) (by decide)).2.2.2.2.1,
   by decide⟩

/-- C7 (amended): on an unlink event for a matching path, a present
path-index mapping leads to exactly one record deletion plus removal of the
index entry, and an absent mapping is a strict no-op; but a mapping is
absent whenever this loader invocation never slow-path-wrote the record —
in particular the fast path leaves the index untouched, so a file synced
only via the fast path (e.g. against a warm store) has no mapping even
though it was successfully synced. -/
theorem unlink_deletes_mapped_only :
    (∀ (env : Env) (p : String) (s : SyncState) (id : String),
      matchesGlob env (env.posixRelative env.baseDir p) = true →
      mapGet s.fileToIdMap p = some id →
      onUnlink env p s =
        { store := storeDelete s.store id
          untouched := s.untouched
          fileToIdMap := mapDelete s.fileToIdMap p
          events := s.events ++ [.storeDelete id] }) ∧
    (∀ (env : Env) (p : String) (s : SyncState),
      matchesGlob env (env.posixRelative env.baseDir p) = true →
      mapGet s.fileToIdMap p = none →
      onUnlink env p s = s) ∧
    (∀ (env : Env) (entry base : String) (files : List String) (s : SyncState)
      (c : String) (st : Stats) (info : EntryInfo),
      env.readFile (base ++ entry) = some c →
      env.statFile (base ++ entry) = some st →
      env.getEntryInfo c (base ++ entry) entry st files = .ok info →
      fastPathTest (storeGet s.store (env.generateId entry base info.data))
        (env.generateDigest c) = true →
      (syncData env entry base files s).2.fileToIdMap = s.fileToIdMap) := by
  refine ⟨?_, ?_, ?_⟩
  · intro env p s id hmatch hmap
    simp [onUnlink, hmatch, hmap, emit]
  · intro env p s hmatch hmap
    simp [onUnlink, hmatch, hmap]
  · intro env entry base files s c st info hread hstat hsplit hfast
    exact (syncData_fast env entry base files s c st info hread hstat hsplit hfast).2.2.1

/-- The record pre-existing in the warm store for the C7 scenario. -/
def recC7 : StoreEntry :=
  { id := "id-a.md", data := "d", body := "b", filePath := some "a.md",
    digest := some "dg-A", rendered := none, assetImports := none, deferredRender := false }

/-- Warm starting state for the C7 counterexample: the record is already in
the store (as after a previous build) but the in-memory path index is
empty. -/
def stC7 : SyncState := ⟨[recC7], [], [], []⟩

/-- Concrete environment for the C7 counterexample and witness. -/
def envC7 : Env :=
  { readFile := fun q => if q = "base/a.md" then some "A" else none
    statFile := fun _ => some ⟨0⟩
    getEntryInfo := fun _ _ e _ _ => .ok ⟨"b", "fm-" ++ e⟩
    generateId := fun e _ _ => "id-" ++ e
    generateDigest := fun c => "dg-" ++ c
    parseData := fun _ d _ => .ok d
    render := fun _ _ b _ _ => .ok ⟨b, none⟩
    posixRelative := fun b q => if strStartsWith q b then ⟨q.data.drop b.data.length⟩ else "../" ++ q
    isConfigFile := fun _ _ => false
    isMatch := fun _ => true
    root := "root/"
    baseDir := "base/"
    files := ["a.md"] }

/-- C7 counterexample: against a warm store the full pass syncs `a.md`
successfully via the fast path (pass succeeds, zero writes), yet the path
index has no mapping for it, so the subsequent unlink event on its matching
path leaves its record in the store — contradicting "a mapping is absent
only when the file was never successfully synced". -/
theorem unlink_mapping_absent_cx :
    (load envC7 stC7).1 = .ok () ∧
    numEv isSetEv (load envC7 stC7).2.events = 0 ∧
    matchesGlob envC7 (envC7.posixRelative envC7.baseDir "base/a.md") = true ∧
    mapGet (load envC7 stC7).2.fileToIdMap "base/a.md" = none ∧
    storeGet (onUnlink envC7 "base/a.md" (load envC7 stC7).2).store "id-a.md" = some recC7 := by
  decide

/-- State with a present mapping for the C7 witness's first conjunct. -/
def stC7m : SyncState := ⟨[recC7], [], [("base/a.md", "id-a.md")], []⟩

theorem unlink_deletes_mapped_only_witness :
    (matchesGlob envC7 (envC7.posixRelative envC7.baseDir "base/a.md") = true ∧
     mapGet stC7m.fileToIdMap "base/a.md" = some "id-a.md" ∧
     onUnlink envC7 "base/a.md" stC7m =
       { store := storeDelete stC7m.store "id-a.md"
         untouched := stC7m.untouched
         fileToIdMap := mapDelete stC7m.fileToIdMap "base/a.md"
         events := stC7m.events ++ [.storeDelete "id-a.md"] }) ∧
    (mapGet stC7.fileToIdMap "base/a.md" = none ∧
     onUnlink envC7 "base/a.md" stC7 = stC7) ∧
    (syncData envC7 "a.md" "base/" envC7.files stC7).2.fileToIdMap = stC7.fileToIdMap :=
  ⟨⟨by decide, by decide,
    unlink_deletes_mapped_only.1 envC7 "base/a.md" stC7m "id-a.md" (by decide) (by decide)⟩,
   ⟨by decide,
    unlink_deletes_mapped_only.2.1 envC7 "base/a.md" stC7 (by decide) (by decide)⟩,
   unlink_deletes_mapped_only.2.2 envC7 "a.md" "base/" envC7.files stC7 "A" ⟨0⟩
     ⟨"b", "fm-a.md"⟩ (by decide) (by decide) (by decide) (by decide)⟩

theorem stepAcc_snd (r : Except String Unit × SyncState) (fe : Option String) :
    (stepAcc r fe).2 = r.2 := rfl

theorem syncData_untouched_keep (env : Env) (entry : String) (s : SyncState) (j : String)
    (hj : ∀ i, derivedId env entry = some i → i ≠ j) :
    (j ∈ (syncData env entry env.baseDir env.files s).2.untouched ↔ j ∈ s.untouched) := by
  cases hstat : env.statFile (env.baseDir ++ entry) with
  | none => rw [(syncData_stat_err env entry env.baseDir env.files s hstat).2.2.2]
  | some st =>
    cases hread : env.readFile (env.baseDir ++ entry) with
    | none =>
      rw [syncData_read_fail_stat_ok env entry env.baseDir env.files s st hread hstat]
      simp [emit]
    | some c =>
      cases hsplit : env.getEntryInfo c (env.baseDir ++ entry) entry st env.files with
      | error e =>
        rw [syncData_split_err env entry env.baseDir env.files s c st e hread hstat hsplit]
        simp [emit]
      | ok info =>
        have hdid := derivedId_eq_some env entry c st info hread hstat hsplit
        have hne' : j ≠ env.generateId entry env.baseDir info.data :=
          fun hh => (hj _ hdid) hh.symm
        cases hfast : fastPathTest (storeGet s.store (env.generateId entry env.baseDir info.data))
            (env.generateDigest c) with
        | true =>
          rw [(syncData_fast env entry env.baseDir env.files s c st info
            hread hstat hsplit hfast).2.2.2.1]
          exact setErase_mem_ne s.untouched _ j hne'
        | false =>
          cases hparse : env.parseData (env.generateId entry env.baseDir info.data) info.data
              (env.baseDir ++ entry) with
          | error e =>
            rw [syncData_parse_err env entry env.baseDir env.files s c st info e
              hread hstat hsplit hfast hparse]
            exact setErase_mem_ne s.untouched _ j hne'
          | ok pd =>
            rw [(syncData_slow_ok env entry env.baseDir env.files s c st info pd
              hread hstat hsplit hfast hparse).2.2.2.1]
            exact setErase_mem_ne s.untouched _ j hne'

theorem runTasks_untouched_keep (env : Env) (l : List String)
    (acc : Option String × SyncState) (j : String)
    (hl : ∀ e ∈ l, env.isConfigFile e env.baseDir = false →
      ∀ i, derivedId env e = some i → i ≠ j) :
    (j ∈ (runTasks env l acc).2.untouched ↔ j ∈ acc.2.untouched) := by
  induction l generalizing acc with
  | nil => rfl
  | cons e rest ih =>
    cases hc : env.isConfigFile e env.baseDir with
    | true =>
      simp only [runTasks, hc, if_true]
      exact ih _ (fun f hf => hl f (List.mem_cons_of_mem e hf))
    | false =>
      simp only [runTasks, hc, Bool.false_eq_true, if_false]
      rw [ih _ (fun f hf => hl f (List.mem_cons_of_mem e hf))]
      rw [stepAcc_snd]
      exact syncData_untouched_keep env e acc.2 j (hl e (List.mem_cons_self e rest) hc)

theorem delStep_get_none (st : SyncState) (i j : String)
    (h : storeGet st.store j = none) : storeGet (delStep st i).store j = none := by
  by_cases hij : i = j
  · subst hij; simp [delStep, emit, storeGet_storeDelete_self]
  · simp [delStep, emit, storeGet_storeDelete_ne st.store i j hij, h]

theorem delFold_get_none (l : List String) (st : SyncState) (j : String)
    (h : storeGet st.store j = none) :
    storeGet (l.foldl delStep st).store j = none := by
  induction l generalizing st with
  | nil => exact h
  | cons i rest ih => exact ih (delStep st i) (delStep_get_none st i j h)

theorem delFold_deletes (l : List String) (j : String) (hj : j ∈ l) :
    ∀ st : SyncState, storeGet (l.foldl delStep st).store j = none := by
  induction l with
  | nil => cases hj
  | cons i rest ih =>
    intro st
    rcases List.mem_cons.mp hj with h | h
    · have : storeGet (delStep st i).store j = none := by
        rw [h]
        simp [delStep, emit, storeGet_storeDelete_self]
      exact delFold_get_none rest (delStep st i) j this
    · exact ih h (delStep st i)

theorem deleteUntouched_deletes (s : SyncState) (j : String) (hj : j ∈ s.untouched) :
    storeGet (deleteUntouched s).store j = none :=
  delFold_deletes s.untouched j hj s

/-- C3: after a full pass completes successfully, every identifier present
in the store at the start of the pass that no (non-config) candidate entry
re-derives during the pass is deleted from the store; in particular a
removed file's record is deleted on the next full pass. -/
theorem stale_ids_deleted (env : Env) (s0 : SyncState) (id : String)
    (hok : (load env s0).1 = .ok ())
    (hid : id ∈ s0.store.map (fun e => e.id))
    (hnd : ∀ e ∈ env.files, env.isConfigFile e env.baseDir = false →
      ∀ i, derivedId env e = some i → i ≠ id) :
    storeGet (load env s0).2.store id = none := by
  simp only [load] at hok ⊢
  cases hr : (runTasks env env.files
      (none, { s0 with untouched := s0.store.map (fun e => e.id) })).1 with
  | some e => rw [hr] at hok; simp at hok
  | none =>
    apply deleteUntouched_deletes
    exact (runTasks_untouched_keep env env.files _ id hnd).mpr hid

/-- Stale record for the C3 witness scenario. -/
def recC3 : StoreEntry :=
  { id := "stale", data := "d", body := "b", filePath := some "x.md",
    digest := some "dg-X", rendered := none, assetImports := none, deferredRender := false }

/-- Starting state for the C3 witness: the store holds only the stale record. -/
def stC3 : SyncState := ⟨[recC3], [], [], []⟩

/-- Concrete environment for the C3 witness: one candidate file whose
derived identifier differs from the stale record's. -/
def envC3 : Env :=
  { readFile := fun q => if q = "base/a.md" then some "A" else none
    statFile := fun _ => some ⟨0⟩
    getEntryInfo := fun c _ e _ _ => .ok ⟨c, "fm-" ++ e⟩
    generateId := fun e _ _ => "id-" ++ e
    generateDigest := fun c => "dg-" ++ c
    parseData := fun _ d _ => .ok d
    render := fun _ _ b _ _ => .ok ⟨b, none⟩
    posixRelative := fun b q => if strStartsWith q b then ⟨q.data.drop b.data.length⟩ else "../" ++ q
    isConfigFile := fun _ _ => false
    isMatch := fun _ => true
    root := "root/"
    baseDir := "base/"
    files := ["a.md"] }

theorem stale_ids_deleted_witness :
    (load envC3 stC3).1 = .ok () ∧
    "stale" ∈ stC3.store.map (fun e => e.id) ∧
    storeGet (load envC3 stC3).2.store "stale" = none :=
  ⟨by decide, by decide,
   stale_ids_deleted envC3 stC3 "stale" (by decide) (by decide)
     (by
       intro f hf hc i hi
       have hfa : f = "a.md" := by
         rcases List.mem_singleton.mp hf with h
         exact h
       subst hfa
       have hd : derivedId envC3 "a.md" = some "id-a.md" := by decide
       rw [hd] at hi
       injection hi with h
       subst h
       decide)⟩

theorem stepAcc_fst_some (r : Except String Unit × SyncState) (m : String) :
    (stepAcc r (some m)).1 = some m := by
  cases hr : r.1 <;> simp [stepAcc, hr]

theorem stepAcc_err_ne_none (r : Except String Unit × SyncState) (fe : Option String)
    (e : String) (hr : r.1 = .error e) : (stepAcc r fe).1 ≠ none := by
  cases fe <;> simp [stepAcc, hr]

theorem runTasks_append (env : Env) (l1 l2 : List String) (acc : Option String × SyncState) :
    runTasks env (l1 ++ l2) acc = runTasks env l2 (runTasks env l1 acc) := by
  induction l1 generalizing acc with
  | nil => rfl
  | cons e rest ih =>
    cases hc : env.isConfigFile e env.baseDir with
    | true =>
      simp only [List.cons_append, runTasks, hc, if_true]
      exact ih _
    | false =>
      simp only [List.cons_append, runTasks, hc, Bool.false_eq_true, if_false]
      exact ih _

theorem runTasks_err_keep (env : Env) (l : List String) (acc : Option String × SyncState)
    (h : acc.1 ≠ none) : (runTasks env l acc).1 ≠ none := by
  induction l generalizing acc with
  | nil => exact h
  | cons e rest ih =>
    cases hc : env.isConfigFile e env.baseDir with
    | true =>
      simp only [runTasks, hc, if_true]
      exact ih _ h
    | false =>
      simp only [runTasks, hc, Bool.false_eq_true, if_false]
      apply ih
      cases hacc : acc.1 with
      | none => exact absurd hacc h
      | some m =>
        rw [stepAcc_fst_some]
        exact Option.some_ne_none m

theorem syncData_store_keep (env : Env) (entry : String) (s : SyncState) (j : String)
    (hj : ∀ i, derivedId env entry = some i → i ≠ j) :
    storeGet ((syncData env entry env.baseDir env.files s).2).store j = storeGet s.store j := by
  cases hstat : env.statFile (env.baseDir ++ entry) with
  | none => rw [(syncData_stat_err env entry env.baseDir env.files s hstat).2.1]
  | some st =>
    cases hread : env.readFile (env.baseDir ++ entry) with
    | none =>
      rw [syncData_read_fail_stat_ok env entry env.baseDir env.files s st hread hstat]
      simp [emit]
    | some c =>
      cases hsplit : env.getEntryInfo c (env.baseDir ++ entry) entry st env.files with
      | error e =>
        rw [syncData_split_err env entry env.baseDir env.files s c st e hread hstat hsplit]
        simp [emit]
      | ok info =>
        have hdid := derivedId_eq_some env entry c st info hread hstat hsplit
        have hne := hj _ hdid
        cases hfast : fastPathTest (storeGet s.store (env.generateId entry env.baseDir info.data))
            (env.generateDigest c) with
        | true =>
          rw [(syncData_fast env entry env.baseDir env.files s c st info
            hread hstat hsplit hfast).2.1]
        | false =>
          cases hparse : env.parseData (env.generateId entry env.baseDir info.data) info.data
              (env.baseDir ++ entry) with
          | error e =>
            rw [syncData_parse_err env entry env.baseDir env.files s c st info e
              hread hstat hsplit hfast hparse]
          | ok pd =>
            rw [(syncData_slow_ok env entry env.baseDir env.files s c st info pd
              hread hstat hsplit hfast hparse).2.1]
            exact storeGet_storeSet_ne s.store _ j hne

theorem runTasks_store_keep (env : Env) (l : List String) (acc : Option String × SyncState)
    (j : String)
    (hl : ∀ f ∈ l, ∀ i, derivedId env f = some i → i ≠ j) :
    storeGet (runTasks env l acc).2.store j = storeGet acc.2.store j := by
  induction l generalizing acc with
  | nil => rfl
  | cons e rest ih =>
    cases hc : env.isConfigFile e env.baseDir with
    | true =>
      simp only [runTasks, hc, if_true]
      exact ih _ (fun f hf => hl f (List.mem_cons_of_mem e hf))
    | false =>
      simp only [runTasks, hc, Bool.false_eq_true, if_false]
      rw [ih _ (fun f hf => hl f (List.mem_cons_of_mem e hf))]
      rw [stepAcc_snd]
      exact syncData_store_keep env e acc.2 j (hl e (List.mem_cons_self e rest))

/-- C8: an entry whose front-matter fails the external validation step
(`parseData`) makes its task reject with exactly that validation error and
write nothing to the store, and the full pass consequently rejects —
propagating the failure to the caller of `load` instead of swallowing it —
with the entry's store key left exactly as it started. -/
theorem parse_failure_propagates (env : Env) (s0 : SyncState) (entry : String)
    (l1 l2 : List String) (c : String) (st : Stats) (info : EntryInfo) (e : String)
    (hfiles : env.files = l1 ++ entry :: l2)
    (hcfg : env.isConfigFile entry env.baseDir = false)
    (hread : env.readFile (env.baseDir ++ entry) = some c)
    (hstat : env.statFile (env.baseDir ++ entry) = some st)
    (hsplit : env.getEntryInfo c (env.baseDir ++ entry) entry st env.files = .ok info)
    (hfast : fastPathTest (storeGet s0.store (env.generateId entry env.baseDir info.data))
      (env.generateDigest c) = false)
    (hparse : env.parseData (env.generateId entry env.baseDir info.data) info.data
      (env.baseDir ++ entry) = .error e)
    (hothers : ∀ f ∈ l1 ++ l2, ∀ i, derivedId env f = some i →
      i ≠ env.generateId entry env.baseDir info.data) :
    (∀ s : SyncState,
      storeGet s.store (env.generateId entry env.baseDir info.data) =
        storeGet s0.store (env.generateId entry env.baseDir info.data) →
      (syncData env entry env.baseDir env.files s).1 = .error e ∧
      (syncData env entry env.baseDir env.files s).2.store = s.store) ∧
    (load env s0).1 ≠ .ok () ∧
    storeGet (load env s0).2.store (env.generateId entry env.baseDir info.data) =
      storeGet s0.store (env.generateId entry env.baseDir info.data) := by
  have part1 : ∀ s : SyncState,
      storeGet s.store (env.generateId entry env.baseDir info.data) =
        storeGet s0.store (env.generateId entry env.baseDir info.data) →
      (syncData env entry env.baseDir env.files s).1 = .error e ∧
      (syncData env entry env.baseDir env.files s).2.store = s.store := by
    intro s hs
    have hf : fastPathTest (storeGet s.store (env.generateId entry env.baseDir info.data))
        (env.generateDigest c) = false := by rw [hs]; exact hfast
    rw [syncData_parse_err env entry env.baseDir env.files s c st info e
      hread hstat hsplit hf hparse]
    exact ⟨rfl, rfl⟩
  have hmid : storeGet (runTasks env l1
        (none, { s0 with untouched := s0.store.map (fun x => x.id) })).2.store
        (env.generateId entry env.baseDir info.data) =
      storeGet s0.store (env.generateId entry env.baseDir info.data) :=
    runTasks_store_keep env l1 _ _
      (fun f hf => hothers f (List.mem_append_left l2 hf))
  have hsd := part1 (runTasks env l1
    (none, { s0 with untouched := s0.store.map (fun x => x.id) })).2 hmid
  have hfin1 : (runTasks env (entry :: l2) (runTasks env l1
      (none, { s0 with untouched := s0.store.map (fun x => x.id) }))).1 ≠ none := by
    simp only [runTasks, hcfg, Bool.false_eq_true, if_false]
    apply runTasks_err_keep
    exact stepAcc_err_ne_none _ _ e hsd.1
  have hfin2 : storeGet (runTasks env (entry :: l2) (runTasks env l1
        (none, { s0 with untouched := s0.store.map (fun x => x.id) }))).2.store
        (env.generateId entry env.baseDir info.data) =
      storeGet s0.store (env.generateId entry env.baseDir info.data) := by
    simp only [runTasks, hcfg, Bool.false_eq_true, if_false]
    rw [runTasks_store_keep env l2 _ _
      (fun f hf => hothers f (List.mem_append_right l1 hf))]
    rw [stepAcc_snd, hsd.2]
    exact hmid
  refine ⟨part1, ?_, ?_⟩
  · simp only [load, hfiles, runTasks_append]
    cases hr : (runTasks env (entry :: l2) (runTasks env l1
        (none, { s0 with untouched := s0.store.map (fun x => x.id) }))).1 with
    | none => exact absurd hr hfin1
    | some msg => simp
  · simp only [load, hfiles, runTasks_append]
    cases hr : (runTasks env (entry :: l2) (runTasks env l1
        (none, { s0 with untouched := s0.store.map (fun x => x.id) }))).1 with
    | none => exact absurd hr hfin1
    | some msg => exact hfin2

/-- Concrete environment for the C8 witness: validation fails for
`bad.md` and succeeds for its sibling. -/
def envC8 : Env :=
  { readFile := fun q => if q = "base/good.md" then some "G"
      else if q = "base/bad.md" then some "B" else none
    statFile := fun _ => some ⟨0⟩
    getEntryInfo := fun c _ e _ _ => .ok ⟨c, "fm-" ++ e⟩
    generateId := fun e _ _ => "id-" ++ e
    generateDigest := fun c => "dg-" ++ c
    parseData := fun i d _ => if i = "id-bad.md" then .error "invalid" else .ok d
    render := fun _ _ b _ _ => .ok ⟨b, none⟩
    posixRelative := fun b q => if strStartsWith q b then ⟨q.data.drop b.data.length⟩ else "../" ++ q
    isConfigFile := fun _ _ => false
    isMatch := fun _ => true
    root := "root/"
    baseDir := "base/"
    files := ["good.md", "bad.md"] }

theorem parse_failure_propagates_witness :
    envC8.parseData "id-bad.md" "fm-bad.md" ("base/" ++ "bad.md") = .error "invalid" ∧
    (load envC8 stEmpty).1 ≠ .ok () ∧
    storeGet (load envC8 stEmpty).2.store
        (envC8.generateId "bad.md" envC8.baseDir "fm-bad.md") =
      storeGet stEmpty.store (envC8.generateId "bad.md" envC8.baseDir "fm-bad.md") :=
  ⟨by decide,
   (parse_failure_propagates envC8 stEmpty "bad.md" ["good.md"] [] "B" ⟨0⟩
     ⟨"B", "fm-bad.md"⟩ "invalid" (by decide) (by decide) (by decide) (by decide)
     (by decide) (by decide) (by decide)
     (by
       intro f hf i hi
       have hf' : f = "good.md" := by simpa using hf
       subst hf'
       have hd : derivedId envC8 "good.md" = some "id-good.md" := by decide
       rw [hd] at hi
       injection hi with h
       subst h
       decide)).2.1,
   (parse_failure_propagates envC8 stEmpty "bad.md" ["good.md"] [] "B" ⟨0⟩
     ⟨"B", "fm-bad.md"⟩ "invalid" (by decide) (by decide) (by decide) (by decide)
     (by decide) (by decide) (by decide)
     (by
       intro f hf i hi
       have hf' : f = "good.md" := by simpa using hf
       subst hf'
       have hd : derivedId envC8 "good.md" = some "id-good.md" := by decide
       rw [hd] at hi
       injection hi with h
       subst h
       decide)).2.2⟩

/-- An entry whose read fails but whose stat succeeds: its task succeeds
without ever deriving an identifier (the no-contents warning branch). -/
def warnReady (env : Env) (e : String) : Prop :=
  env.readFile (env.baseDir ++ e) = none ∧ ∃ st, env.statFile (env.baseDir ++ e) = some st

/-- An entry that has been accounted for by a pass: its collaborator calls
succeed deterministically, its derived identifier has been removed from the
untouched set, and the store holds a record for it whose digest matches its
current contents and whose file path is truthy (so a re-run fast-paths). -/
def syncedReady (env : Env) (e : String) (s : SyncState) : Prop :=
  ∃ c st info, env.readFile (env.baseDir ++ e) = some c ∧
    env.statFile (env.baseDir ++ e) = some st ∧
    env.getEntryInfo c (env.baseDir ++ e) e st env.files = .ok info ∧
    env.generateId e env.baseDir info.data ∉ s.untouched ∧
    ∃ rec, storeGet s.store (env.generateId e env.baseDir info.data) = some rec ∧
      rec.digest = some (env.generateDigest c) ∧ truthyPath rec.filePath = true

theorem stepAcc_none (r : Except String Unit × SyncState) (fe : Option String)
    (h : (stepAcc r fe).1 = none) : fe = none ∧ r.1 = .ok () := by
  cases hr : r.1 with
  | ok u => cases fe with
    | none => exact ⟨rfl, rfl⟩
    | some m => rw [stepAcc_fst_some] at h; cases h
  | error e =>
    cases fe with
    | none => simp [stepAcc, hr] at h
    | some m => rw [stepAcc_fst_some] at h; cases h

theorem runTasks_none_acc (env : Env) (l : List String) (acc : Option String × SyncState)
    (h : (runTasks env l acc).1 = none) : acc.1 = none := by
  by_contra hne
  exact (runTasks_err_keep env l acc hne) h

theorem syncData_ok_cases (env : Env) (e : String) (s : SyncState)
    (hok : (syncData env e env.baseDir env.files s).1 = .ok ()) :
    warnReady env e ∨
    (∃ c st info, env.readFile (env.baseDir ++ e) = some c ∧
      env.statFile (env.baseDir ++ e) = some st ∧
      env.getEntryInfo c (env.baseDir ++ e) e st env.files = .ok info ∧
      ((fastPathTest (storeGet s.store (env.generateId e env.baseDir info.data))
          (env.generateDigest c) = true ∧
        (syncData env e env.baseDir env.files s).2.store = s.store ∧
        (syncData env e env.baseDir env.files s).2.untouched =
          setErase s.untouched (env.generateId e env.baseDir info.data)) ∨
       (∃ pd, env.parseData (env.generateId e env.baseDir info.data) info.data
           (env.baseDir ++ e) = .ok pd ∧
        (syncData env e env.baseDir env.files s).2.store =
          storeSet s.store (slowRecord env e env.baseDir c info pd) ∧
        (syncData env e env.baseDir env.files s).2.untouched =
          setErase s.untouched (env.generateId e env.baseDir info.data)))) := by
  cases hstat : env.statFile (env.baseDir ++ e) with
  | none =>
    exact absurd ((syncData_stat_err env e env.baseDir env.files s hstat).1.symm.trans hok)
      (by simp)
  | some st =>
    cases hread : env.readFile (env.baseDir ++ e) with
    | none => exact .inl ⟨hread, st, hstat⟩
    | some c =>
      cases hsplit : env.getEntryInfo c (env.baseDir ++ e) e st env.files with
      | error er =>
        rw [syncData_split_err env e env.baseDir env.files s c st er hread hstat hsplit] at hok
        cases hok
      | ok info =>
        cases hfast : fastPathTest (storeGet s.store (env.generateId e env.baseDir info.data))
            (env.generateDigest c) with
        | true =>
          obtain ⟨h1, h2, h3, h4, _⟩ :=
            syncData_fast env e env.baseDir env.files s c st info hread hstat hsplit hfast
          exact .inr ⟨c, st, info, rfl, rfl, hsplit, .inl ⟨hfast, h2, h4⟩⟩
        | false =>
          cases hparse : env.parseData (env.generateId e env.baseDir info.data) info.data
              (env.baseDir ++ e) with
          | error er =>
            rw [syncData_parse_err env e env.baseDir env.files s c st info er
              hread hstat hsplit hfast hparse] at hok
            cases hok
          | ok pd =>
            obtain ⟨h1, h2, h3, h4, _⟩ :=
              syncData_slow_ok env e env.baseDir env.files s c st info pd
                hread hstat hsplit hfast hparse
            exact .inr ⟨c, st, info, rfl, rfl, hsplit, .inr ⟨pd, hparse, h2, h4⟩⟩

theorem syncData_synced_fast (env : Env) (e0 : String) (s : SyncState)
    (hsy : syncedReady env e0 s) :
    (syncData env e0 env.baseDir env.files s).1 = .ok () ∧
    syncedReady env e0 (syncData env e0 env.baseDir env.files s).2 := by
  obtain ⟨c, st, info, hread, hstat, hsplit, hunt, rec, hrec, hdg, htr⟩ := hsy
  have hfast : fastPathTest (storeGet s.store (env.generateId e0 env.baseDir info.data))
      (env.generateDigest c) = true := by
    rw [hrec]
    simp [fastPathTest, hdg, htr]
  obtain ⟨h1, h2, h3, h4, _⟩ :=
    syncData_fast env e0 env.baseDir env.files s c st info hread hstat hsplit hfast
  refine ⟨h1, c, st, info, hread, hstat, hsplit, ?_, rec, ?_, hdg, htr⟩
  · rw [h4]
    exact setErase_self_not_mem s.untouched _
  · rw [h2]
    exact hrec

theorem syncData_preserves_synced (env : Env) (e0 f : String) (s : SyncState)
    (hsy : syncedReady env e0 s)
    (hcross : ∀ i, derivedId env f = some i → derivedId env e0 = some i → f = e0) :
    syncedReady env e0 (syncData env f env.baseDir env.files s).2 := by
  obtain ⟨c, st, info, hread, hstat, hsplit, hunt, rec, hrec, hdg, htr⟩ := hsy
  have hd0 : derivedId env e0 = some (env.generateId e0 env.baseDir info.data) :=
    derivedId_eq_some env e0 c st info hread hstat hsplit
  by_cases hdf : derivedId env f = some (env.generateId e0 env.baseDir info.data)
  · have hfe : f = e0 := hcross _ hdf hd0
    subst hfe
    exact (syncData_synced_fast env f s
      ⟨c, st, info, hread, hstat, hsplit, hunt, rec, hrec, hdg, htr⟩).2
  · have hne : ∀ i, derivedId env f = some i →
        i ≠ env.generateId e0 env.baseDir info.data := by
      intro i hi heq
      exact hdf (heq ▸ hi)
    refine ⟨c, st, info, hread, hstat, hsplit, ?_, rec, ?_, hdg, htr⟩
    · intro hmem
      exact hunt ((syncData_untouched_keep env f s _ hne).mp hmem)
    · rw [syncData_store_keep env f s _ hne]
      exact hrec

theorem runTasks_preserves_synced (env : Env) (e0 : String) (l : List String)
    (hcross : ∀ f ∈ l, ∀ i, derivedId env f = some i → derivedId env e0 = some i → f = e0) :
    ∀ (fe : Option String) (s : SyncState), syncedReady env e0 s →
      syncedReady env e0 (runTasks env l (fe, s)).2 := by
  induction l with
  | nil => intro fe s h; exact h
  | cons f rest ih =>
    intro fe s h
    cases hc : env.isConfigFile f env.baseDir with
    | true =>
      simp only [runTasks, hc, if_true]
      exact ih (fun g hg => hcross g (List.mem_cons_of_mem f hg)) fe s h
    | false =>
      simp only [runTasks, hc, Bool.false_eq_true, if_false]
      have h' := syncData_preserves_synced env e0 f s h
        (hcross f (List.mem_cons_self f rest))
      exact ih (fun g hg => hcross g (List.mem_cons_of_mem f hg)) _ _ h'

theorem runTasks_establishes (env : Env) (l : List String)
    (HinjL : ∀ f1 ∈ l, ∀ f2 ∈ l, ∀ i, derivedId env f1 = some i →
      derivedId env f2 = some i → f1 = f2)
    (HtrL : ∀ f ∈ l, env.posixRelative env.root (env.baseDir ++ f) ≠ "") :
    ∀ (fe : Option String) (s : SyncState),
      (runTasks env l (fe, s)).1 = none →
      ∀ e ∈ l, env.isConfigFile e env.baseDir = false →
        warnReady env e ∨ syncedReady env e (runTasks env l (fe, s)).2 := by
  induction l with
  | nil => intro fe s hnone e he; cases he
  | cons f rest ih =>
    intro fe s hnone e he hcfg
    cases hc : env.isConfigFile f env.baseDir with
    | true =>
      simp only [runTasks, hc, if_true] at hnone ⊢
      rcases List.mem_cons.mp he with hef | her
      · subst hef
        exact absurd hc (by rw [hcfg]; simp)
      · exact ih (fun f1 h1 f2 h2 => HinjL f1 (List.mem_cons_of_mem f h1)
            f2 (List.mem_cons_of_mem f h2))
          (fun g hg => HtrL g (List.mem_cons_of_mem f hg)) fe s hnone e her hcfg
    | false =>
      simp only [runTasks, hc, Bool.false_eq_true, if_false] at hnone ⊢
      have hacc1 : (stepAcc (syncData env f env.baseDir env.files s) fe).1 = none :=
        runTasks_none_acc env rest _ hnone
      obtain ⟨hfe, hok⟩ := stepAcc_none _ _ hacc1
      rcases List.mem_cons.mp he with hef | her
      · -- e = f : classify, then preserve through rest
        subst hef
        rcases syncData_ok_cases env e s hok with hw | ⟨c, st, info, hread, hstat, hsplit, hbr⟩
        · exact .inl hw
        · right
          have hsy : syncedReady env e (syncData env e env.baseDir env.files s).2 := by
            rcases hbr with ⟨hfast, hstore, hunt⟩ | ⟨pd, hparse, hstore, hunt⟩
            · -- fast path: the pre-existing record satisfies the digest test
              cases hrec : storeGet s.store (env.generateId e env.baseDir info.data) with
              | none => rw [hrec] at hfast; simp [fastPathTest] at hfast
              | some rec =>
                rw [hrec] at hfast
                simp only [fastPathTest, Bool.and_eq_true, decide_eq_true_eq] at hfast
                refine ⟨c, st, info, hread, hstat, hsplit, ?_, rec, ?_, hfast.1, hfast.2⟩
                · rw [hunt]; exact setErase_self_not_mem s.untouched _
                · rw [hstore]; exact hrec
            · -- slow path: the freshly written record satisfies it
              refine ⟨c, st, info, hread, hstat, hsplit, ?_,
                slowRecord env e env.baseDir c info pd, ?_, rfl, ?_⟩
              · rw [hunt]; exact setErase_self_not_mem s.untouched _
              · rw [hstore]
                exact storeGet_storeSet_self s.store _
              · have := HtrL e (List.mem_cons_self e rest)
                simp [slowRecord, truthyPath, this]
          have hcross : ∀ g ∈ rest, ∀ i, derivedId env g = some i →
              derivedId env e = some i → g = e := by
            intro g hg i h1 h2
            exact HinjL g (List.mem_cons_of_mem e hg) e (List.mem_cons_self e rest) i h1 h2
          exact runTasks_preserves_synced env e rest hcross _ _ hsy
      · exact ih (fun f1 h1 f2 h2 => HinjL f1 (List.mem_cons_of_mem f h1)
            f2 (List.mem_cons_of_mem f h2))
          (fun g hg => HtrL g (List.mem_cons_of_mem f hg)) _ _ hnone e her hcfg

theorem delFold_untouched (l : List String) (st : SyncState) :
    (l.foldl delStep st).untouched = st.untouched := by
  induction l generalizing st with
  | nil => rfl
  | cons i rest ih => exact (ih (delStep st i)).trans rfl

theorem delFold_get_keep (l : List String) (j : String) (hj : j ∉ l) :
    ∀ st : SyncState, storeGet (l.foldl delStep st).store j = storeGet st.store j := by
  induction l with
  | nil => intro st; rfl
  | cons i rest ih =>
    intro st
    have hij : i ≠ j := fun h => hj (h ▸ List.mem_cons_self i rest)
    have hjr : j ∉ rest := fun h => hj (List.mem_cons_of_mem i h)
    simp only [List.foldl_cons]
    rw [ih hjr (delStep st i)]
    simp [delStep, emit, storeGet_storeDelete_ne st.store i j hij]

theorem deleteUntouched_preserves_synced (env : Env) (e : String) (s : SyncState)
    (h : syncedReady env e s) : syncedReady env e (deleteUntouched s) := by
  obtain ⟨c, st, info, hread, hstat, hsplit, hunt, rec, hrec, hdg, htr⟩ := h
  refine ⟨c, st, info, hread, hstat, hsplit, ?_, rec, ?_, hdg, htr⟩
  · rw [deleteUntouched, delFold_untouched]
    exact hunt
  · rw [deleteUntouched, delFold_get_keep s.untouched _ hunt s]
    exact hrec

theorem numEv_eq_of_all_false (p : Ev → Bool) (a d : List Ev)
    (h : ∀ ev ∈ d, p ev = false) : numEv p (a ++ d) = numEv p a := by
  rw [numEv_append]
  have hz : numEv p d = 0 := by
    simp only [numEv, List.length_eq_zero, List.filter_eq_nil_iff]
    intro ev hev
    rw [h ev hev]
    exact fun hh => by cases hh
  rw [hz, Nat.add_zero]

theorem delFold_numEv (p : Ev → Bool) (hp : ∀ i, p (.storeDelete i) = false)
    (l : List String) :
    ∀ st : SyncState, numEv p (l.foldl delStep st).events = numEv p st.events := by
  induction l with
  | nil => intro st; rfl
  | cons i rest ih =>
    intro st
    simp only [List.foldl_cons]
    rw [ih (delStep st i)]
    simp only [delStep, emit]
    exact numEv_eq_of_all_false p st.events [.storeDelete i]
      (by intro ev hev; simp at hev; rw [hev]; exact hp i)

/-- An entry the per-entry routine will fast-path in a given store: all its
collaborator calls succeed and the store holds a matching record (digest
equal, truthy file path).  Unlike `syncedReady` this says nothing about the
untouched set, so it survives the reset at the start of a new pass. -/
def fastReady (env : Env) (e : String) (store : List StoreEntry) : Prop :=
  ∃ c st info, env.readFile (env.baseDir ++ e) = some c ∧
    env.statFile (env.baseDir ++ e) = some st ∧
    env.getEntryInfo c (env.baseDir ++ e) e st env.files = .ok info ∧
    ∃ rec, storeGet store (env.generateId e env.baseDir info.data) = some rec ∧
      rec.digest = some (env.generateDigest c) ∧ truthyPath rec.filePath = true

theorem syncedReady_to_fast (env : Env) (e : String) (s : SyncState)
    (h : syncedReady env e s) : fastReady env e s.store := by
  obtain ⟨c, st, info, hread, hstat, hsplit, _, rec, hrec, hdg, htr⟩ := h
  exact ⟨c, st, info, hread, hstat, hsplit, rec, hrec, hdg, htr⟩

/-- In a state where every (non-config) entry is warn-ready or fast-ready,
the task loop reports no failure, leaves the store untouched, only shrinks
the untouched set, and emits only split calls, module-import notices and
log lines — no `store.set`, no `parseData` call, no render call. -/
theorem runTasks_all_ready (env : Env) (l : List String) :
    ∀ (fe : Option String) (s : SyncState),
      (∀ e ∈ l, env.isConfigFile e env.baseDir = false →
        warnReady env e ∨ fastReady env e s.store) →
      (runTasks env l (fe, s)).1 = fe ∧
      (runTasks env l (fe, s)).2.store = s.store ∧
      (∀ j, j ∈ (runTasks env l (fe, s)).2.untouched → j ∈ s.untouched) ∧
      (∀ p : Ev → Bool,
        (∀ x y z, p (.splitCall x y z) = false) →
        (∀ x, p (.addModuleImport x) = false) →
        (∀ x, p (.logError x) = false) →
        (∀ x, p (.logWarn x) = false) →
        numEv p (runTasks env l (fe, s)).2.events = numEv p s.events) := by
  induction l with
  | nil => intro fe s _; exact ⟨rfl, rfl, fun j h => h, fun p _ _ _ _ => rfl⟩
  | cons e rest ih =>
    intro fe s hl
    cases hc : env.isConfigFile e env.baseDir with
    | true =>
      simp only [runTasks, hc, if_true]
      exact ih fe s (fun g hg => hl g (List.mem_cons_of_mem e hg))
    | false =>
      simp only [runTasks, hc, Bool.false_eq_true, if_false]
      rcases hl e (List.mem_cons_self e rest) hc with hw | hsy
      · -- warn-ready entry
        obtain ⟨hread, st, hstat⟩ := hw
        rw [syncData_read_fail_stat_ok env e env.baseDir env.files s st hread hstat]
        have hstep : stepAcc ((.ok (),
            emit (emit s (.logError ("Error reading " ++ e)))
              (.logWarn ("No contents found for " ++ e))) :
              Except String Unit × SyncState) fe =
            (fe, emit (emit s (.logError ("Error reading " ++ e)))
              (.logWarn ("No contents found for " ++ e))) := by
          cases fe <;> rfl
        rw [hstep]
        have htr : ∀ g ∈ rest, env.isConfigFile g env.baseDir = false →
            warnReady env g ∨ fastReady env g
              (emit (emit s (.logError ("Error reading " ++ e)))
                (.logWarn ("No contents found for " ++ e))).store := by
          intro g hg hgc
          rcases hl g (List.mem_cons_of_mem e hg) hgc with h | h
          · exact .inl h
          · exact .inr h
        obtain ⟨i1, i2, i3, i4⟩ := ih fe _ htr
        refine ⟨i1, i2.trans rfl, fun j hj => i3 j hj, ?_⟩
        intro p hps hpa hpe hpw
        rw [i4 p hps hpa hpe hpw]
        simp only [emit]
        rw [List.append_assoc]
        exact numEv_eq_of_all_false p s.events _
          (by
            intro ev hev
            simp at hev
            rcases hev with h | h <;> rw [h]
            · exact hpe _
            · exact hpw _)
      · -- fast-ready entry
        obtain ⟨c, st, info, hread, hstat, hsplit, rec, hrec, hdg, htrp⟩ := hsy
        have hfast : fastPathTest (storeGet s.store (env.generateId e env.baseDir info.data))
            (env.generateDigest c) = true := by
          rw [hrec]
          simp [fastPathTest, hdg, htrp]
        obtain ⟨h1, h2, h3, h4, tail, hev, htail⟩ :=
          syncData_fast env e env.baseDir env.files s c st info hread hstat hsplit hfast
        have hstep : stepAcc (syncData env e env.baseDir env.files s) fe =
            (fe, (syncData env e env.baseDir env.files s).2) := by
          cases hfe : fe with
          | none => simp [stepAcc, h1]
          | some m => simp [stepAcc, h1]
        rw [hstep]
        have htr : ∀ g ∈ rest, env.isConfigFile g env.baseDir = false →
            warnReady env g ∨
              fastReady env g (syncData env e env.baseDir env.files s).2.store := by
          intro g hg hgc
          rcases hl g (List.mem_cons_of_mem e hg) hgc with h | h
          · exact .inl h
          · rw [h2]
            exact .inr h
        obtain ⟨i1, i2, i3, i4⟩ := ih fe _ htr
        refine ⟨i1, i2.trans h2, ?_, ?_⟩
        · intro j hj
          have hj2 := i3 j hj
          rw [h4] at hj2
          exact setErase_subset s.untouched _ j hj2
        · intro p hps hpa hpe hpw
          rw [i4 p hps hpa hpe hpw, hev, List.append_assoc]
          exact numEv_eq_of_all_false p s.events _
            (by
              intro ev hev'
              simp at hev'
              rcases hev' with h | h
              · rw [h]; exact hps _ _ _
              · obtain ⟨q, hq⟩ := htail ev h
                rw [hq]; exact hpa _)

/-- C2: (first conjunct) an entry whose digest matches the stored record
with a truthy file path takes the fast path: the routine succeeds with no
validation call, no render call and no store write; (second conjunct)
consequently — given the identifier-assigner injectivity contract and
non-empty project-relative paths — re-running a full pass after a
successful one, with no environment change, succeeds and performs zero
store writes, zero validation calls and zero render calls. -/
theorem idempotent_second_pass (env : Env) (s0 : SyncState)
    (Hinj : ∀ e1 ∈ env.files, ∀ e2 ∈ env.files, ∀ i,
      derivedId env e1 = some i → derivedId env e2 = some i → e1 = e2)
    (Htr : ∀ e ∈ env.files, env.posixRelative env.root (env.baseDir ++ e) ≠ "")
    (hok : (load env s0).1 = .ok ()) :
    (∀ (entry base : String) (files : List String) (s : SyncState) (c : String)
        (st : Stats) (info : EntryInfo),
      env.readFile (base ++ entry) = some c →
      env.statFile (base ++ entry) = some st →
      env.getEntryInfo c (base ++ entry) entry st files = .ok info →
      fastPathTest (storeGet s.store (env.generateId entry base info.data))
        (env.generateDigest c) = true →
      (syncData env entry base files s).1 = .ok () ∧
      (syncData env entry base files s).2.store = s.store ∧
      numEv isSetEv (syncData env entry base files s).2.events = numEv isSetEv s.events ∧
      numEv isParseEv (syncData env entry base files s).2.events = numEv isParseEv s.events ∧
      numEv isRenderEv (syncData env entry base files s).2.events = numEv isRenderEv s.events) ∧
    ((load env (load env s0).2).1 = .ok () ∧
     numEv isSetEv (load env (load env s0).2).2.events =
       numEv isSetEv (load env s0).2.events ∧
     numEv isParseEv (load env (load env s0).2).2.events =
       numEv isParseEv (load env s0).2.events ∧
     numEv isRenderEv (load env (load env s0).2).2.events =
       numEv isRenderEv (load env s0).2.events) := by
  constructor
  · intro entry base files s c st info hread hstat hsplit hfast
    obtain ⟨h1, h2, h3, h4, tail, hev, htail⟩ :=
      syncData_fast env entry base files s c st info hread hstat hsplit hfast
    have hcnt : ∀ p : Ev → Bool,
        (∀ x y z, p (.splitCall x y z) = false) →
        (∀ x, p (.addModuleImport x) = false) →
        numEv p (syncData env entry base files s).2.events = numEv p s.events := by
      intro p hps hpa
      rw [hev, List.append_assoc]
      apply numEv_eq_of_all_false
      intro ev hev'
      simp at hev'
      rcases hev' with h | h
      · rw [h]; exact hps _ _ _
      · obtain ⟨q, hq⟩ := htail ev h
        rw [hq]; exact hpa _
    exact ⟨h1, h2,
      hcnt isSetEv (fun _ _ _ => rfl) (fun _ => rfl),
      hcnt isParseEv (fun _ _ _ => rfl) (fun _ => rfl),
      hcnt isRenderEv (fun _ _ _ => rfl) (fun _ => rfl)⟩
  · simp only [load] at hok
    cases hr1 : (runTasks env env.files
        (none, { s0 with untouched := s0.store.map (fun x => x.id) })).1 with
    | some m => rw [hr1] at hok; simp at hok
    | none =>
      have hL : load env s0 = (.ok (), deleteUntouched (runTasks env env.files
          (none, { s0 with untouched := s0.store.map (fun x => x.id) })).2) := by
        simp only [load, hr1]
      have hready : ∀ e ∈ env.files, env.isConfigFile e env.baseDir = false →
          warnReady env e ∨ fastReady env e (deleteUntouched (runTasks env env.files
            (none, { s0 with untouched := s0.store.map (fun x => x.id) })).2).store := by
        intro e he hc
        rcases runTasks_establishes env env.files Hinj Htr none _ hr1 e he hc with h | h
        · exact .inl h
        · exact .inr (syncedReady_to_fast env e _
            (deleteUntouched_preserves_synced env e _ h))
      rw [hL]
      simp only [load]
      obtain ⟨j1, j2, j3, j4⟩ := runTasks_all_ready env env.files none
        { deleteUntouched (runTasks env env.files
            (none, { s0 with untouched := s0.store.map (fun x => x.id) })).2 with
          untouched := (deleteUntouched (runTasks env env.files
            (none, { s0 with untouched := s0.store.map (fun x => x.id) })).2).store.map
            (fun x => x.id) }
        hready
      rw [j1]
      have hdel : ∀ p : Ev → Bool, (∀ i, p (.storeDelete i) = false) →
          (∀ x y z, p (.splitCall x y z) = false) →
          (∀ x, p (.addModuleImport x) = false) →
          (∀ x, p (.logError x) = false) →
          (∀ x, p (.logWarn x) = false) →
          numEv p (deleteUntouched (runTasks env env.files
            (none, { deleteUntouched (runTasks env env.files
              (none, { s0 with untouched := s0.store.map (fun x => x.id) })).2 with
              untouched := (deleteUntouched (runTasks env env.files
                (none, { s0 with untouched := s0.store.map (fun x => x.id) })).2).store.map
                (fun x => x.id) })).2).events =
          numEv p (deleteUntouched (runTasks env env.files
            (none, { s0 with untouched := s0.store.map (fun x => x.id) })).2).events := by
        intro p hpd hps hpa hpe hpw
        rw [deleteUntouched, delFold_numEv p hpd]
        exact j4 p hps hpa hpe hpw
      exact ⟨rfl,
        hdel isSetEv (fun _ => rfl) (fun _ _ _ => rfl) (fun _ => rfl) (fun _ => rfl) (fun _ => rfl),
        hdel isParseEv (fun _ => rfl) (fun _ _ _ => rfl) (fun _ => rfl) (fun _ => rfl) (fun _ => rfl),
        hdel isRenderEv (fun _ => rfl) (fun _ _ _ => rfl) (fun _ => rfl) (fun _ => rfl) (fun _ => rfl)⟩

/-- Concrete environment for the C2 witness: one readable candidate file. -/
def envC2 : Env :=
  { readFile := fun q => if q = "base/a.md" then some "A" else none
    statFile := fun _ => some ⟨0⟩
    getEntryInfo := fun c _ e _ _ => .ok ⟨c, "fm-" ++ e⟩
    generateId := fun e _ _ => "id-" ++ e
    generateDigest := fun c => "dg-" ++ c
    parseData := fun _ d _ => .ok d
    render := fun _ _ b _ _ => .ok ⟨b, none⟩
    posixRelative := fun b q => if strStartsWith q b then ⟨q.data.drop b.data.length⟩ else "../" ++ q
    isConfigFile := fun _ _ => false
    isMatch := fun _ => true
    root := "root/"
    baseDir := "base/"
    files := ["a.md"] }

/-- Store state whose record already matches `a.md` (for the fast-path
conjunct of the C2 witness). -/
def stC2fast : SyncState :=
  ⟨[{ id := "id-a.md", data := "d", body := "b", filePath := some "p",
      digest := some "dg-A", rendered := none, assetImports := none,
      deferredRender := false }], [], [], []⟩

theorem idempotent_second_pass_witness :
    (load envC2 stEmpty).1 = .ok () ∧
    (load envC2 (load envC2 stEmpty).2).1 = .ok () ∧
    numEv isSetEv (load envC2 (load envC2 stEmpty).2).2.events =
      numEv isSetEv (load envC2 stEmpty).2.events ∧
    numEv isParseEv (load envC2 (load envC2 stEmpty).2).2.events =
      numEv isParseEv (load envC2 stEmpty).2.events ∧
    numEv isRenderEv (load envC2 (load envC2 stEmpty).2).2.events =
      numEv isRenderEv (load envC2 stEmpty).2.events ∧
    ((syncData envC2 "a.md" "base/" envC2.files stC2fast).1 = .ok () ∧
     (syncData envC2 "a.md" "base/" envC2.files stC2fast).2.store = stC2fast.store ∧
     numEv isSetEv (syncData envC2 "a.md" "base/" envC2.files stC2fast).2.events =
       numEv isSetEv stC2fast.events) := by
  have h := idempotent_second_pass envC2 stEmpty
    (by
      intro f1 h1 f2 h2 i hd1 hd2
      have e1 : f1 = "a.md" := by simpa [envC2] using h1
      have e2 : f2 = "a.md" := by simpa [envC2] using h2
      rw [e1, e2])
    (by
      intro e he
      have he' : e = "a.md" := by simpa [envC2] using he
      subst he'
      decide)
    (by decide)
  have hA := h.1 "a.md" "base/" envC2.files stC2fast "A" ⟨0⟩ ⟨"A", "fm-a.md"⟩
    (by decide) (by decide) (by decide) (by decide)
  exact ⟨by decide, h.2.1, h.2.2.1, h.2.2.2.1, h.2.2.2.2, hA.1, hA.2.1, hA.2.2.1⟩

end Obsidian
